import Mathlib

/-!
# Nilan Modbus gateway: verification of `src/main.cpp`

A shallow embedding of the firmware's bus access guard, connection supervisors,
register decoder, alarm rendering and water pulse detector, followed by the
theorems that settle the claims made about them.

Conventions of the embedding.

* The global variables of the sketch are the fields of `Gateway`; a function of the
  sketch becomes a function `Gateway → Gateway` taking the values it reads from the
  outside world (ADC sample, link status, connect result) as arguments.
* A C++ `int`, `long` (32 bit on the ESP8266) is an `Int`; results that can leave the
  32-bit range are passed through `wrap32`.  The `unsigned long` value of `millis()`
  is a `Nat` below `2^32`.
* Everything the firmware sends out or asks of the platform is recorded, in order,
  in `Gateway.trace`.
* `ESP.reset()` and `ESP.restart()` do not return: they set `Gateway.rebooted` and the
  rest of the function is not executed.
-/

namespace Nilan

/-! ## Machine integers -/

/-- Value of a 32-bit two's complement `int` holding the mathematical integer `x`. -/
def wrap32 (x : Int) : Int := (x + 2147483648) % 4294967296 - 2147483648

/-- Value of an `int16_t` holding the mathematical integer `x`
(the conversion applied when a bus word is stored into `rsBuffer`). -/
def wrap16 (x : Int) : Int := (x + 32768) % 65536 - 32768

/-- The cast `(long)millis()`: a 32-bit unsigned value read as a signed one. -/
def toLong (m : Nat) : Int := wrap32 (m : Int)

/-- An `unsigned long` result: reduction modulo `2^32`. -/
def wrapU32 (x : Int) : Nat := (x % 4294967296).toNat

/-! ## Observable actions -/

/-- What the firmware does to the outside world. -/
inductive Event where
  /-- Call `mqttClient.publish(topic, payload, retained)`. -/
  | publish (topic payload : String) (retained : Bool)
  /-- Call `mqttClient.subscribe(topic)`. -/
  | subscribe (topic : String)
  /-- Entry into `incrementTicks(consumption)`. -/
  | incrementTicks (consumption : Int)
  /-- Call `WiFi.begin(ssid, password)`. -/
  | wifiBegin
  /-- Start of the update service and of the web server after the link came up. -/
  | servicesBegin
  /-- Call `digitalWrite(LED_BUILTIN, level)`, `true` for `HIGH`. -/
  | led (high : Bool)
  /-- Call `ESP.reset()`. -/
  | reset
  /-- Call `ESP.restart()`. -/
  | restart
  /-- Call `mqttClient.unsubscribe(topic)`. -/
  | unsubscribe (topic : String)
  /-- Entry into `WriteModbus(addr, val)`. -/
  | writeModbus (addr val : Int)
  /-- The bus transaction of `WriteModbus`: `node.setTransmitBuffer(0, val)` followed by
  `node.writeMultipleRegisters(addr, 1)`. -/
  | busWrite (addr val : Int)
  /-- The bus transaction of `ReadModbus`: `node.readHoldingRegisters(addr, sizer)` when
  `holding` is `true`, `node.readInputRegisters(addr, sizer)` otherwise. -/
  | busRead (holding : Bool) (addr : Int) (sizer : Nat)
  deriving DecidableEq, Repr

/-- The enum `connectState`. -/
inductive ConnectState where
  | CONNECT_START
  | CONNECT_WAIT
  | CONNECT_SUCCESS
  | CONNECT_FAILURE
  deriving DecidableEq, Repr

/-! ## Global state -/

/-- The global and function-static variables of the sketch, with their initial values. -/
structure Gateway where
  /-- Current reading of `millis()`: the value that the calls of `millis()` made by a
  function return, moved on by `delay` inside a function and by `elapse` between calls. -/
  millis : Nat := 0
  fakeIr : Int := 0
  waterIrLevel : Int := 0
  waterIrLevelReal : Int := 0
  waterLastLevel : Int := 0
  waterIrDiff : Int := 0
  waterIrMaxReal : Int := 0
  waterIrMinReal : Int := 1024
  waterIrMin : Int := 100
  waterIrMiddle : Int := 400
  waterIrMax : Int := 700
  waterState : Int := 0
  waterConsumptionCount : Int := 0
  movingAvrIrMinCount : Int := 0
  movingAvrIrMaxCount : Int := 0
  movingAvrIrMidCount1 : Int := 0
  movingAvrIrMidCount2 : Int := 0
  mqttSendOnConnectWater : Bool := false
  modbusCooldown : Int := 0
  modbusCooldownHit : Int := 0
  wifiConnectFailTime : Nat := 0
  wifiConnectState : ConnectState := ConnectState.CONNECT_START
  mqttConnectNext : Nat := 0
  mqttConnectState : ConnectState := ConnectState.CONNECT_START
  numberRetries : Int := 0
  waterWaitingForConsumptionCount : Bool := true
  ventEntryNext : Nat := 0
  modbusErrorActive : Bool := false
  /-- Set once `ESP.reset()` or `ESP.restart()` has been called. -/
  rebooted : Bool := false
  /-- Actions performed so far, oldest first. -/
  trace : List Event := []

/-- The state right after the globals have been initialised. -/
def Gateway.boot : Gateway := {}

/-- Record one action. -/
def Gateway.emit (s : Gateway) (e : Event) : Gateway := { s with trace := s.trace ++ [e] }

/-- The call `delay(ms)`: the clock moves on by `ms` milliseconds. -/
def delay (ms : Nat) (s : Gateway) : Gateway := { s with millis := (s.millis + ms) % 4294967296 }

/-- Time passing outside the modelled functions. -/
def elapse (ms : Nat) (s : Gateway) : Gateway := { s with millis := (s.millis + ms) % 4294967296 }

/-- Arguments of the `incrementTicks` calls recorded in a trace, oldest first. -/
def tickCalls : List Event → List Int
  | [] => []
  | Event.incrementTicks c :: rest => c :: tickCalls rest
  | _ :: rest => tickCalls rest

/-! ## Water pulse detector -/

/-- The two double-precision expressions of the detector after their conversion back to
`int`: `lower a m` stands for `a - m * 0.1` and `raise a m` for `a + m * 0.1`.  Floating
point is not modelled; the detector is defined, and its theorems are proved, for every
choice of these two functions. -/
structure Drift where
  lower : Int → Int → Int
  raise : Int → Int → Int

/-- The drift adjustment computed in exact arithmetic and truncated towards zero. -/
def Drift.exact : Drift where
  lower a m := Int.tdiv (10 * a - m) 10
  raise a m := Int.tdiv (10 * a + m) 10

/-- The function `incrementTicks(consumption)`; `online` is the value of
`mqttClient.connected() && WiFi.status() == WL_CONNECTED`. -/
def incrementTicks (online : Bool) (consumption : Int) (s : Gateway) : Gateway :=
  let s := s.emit (Event.incrementTicks consumption)
  let s : Gateway := { s with waterConsumptionCount := wrap32 (s.waterConsumptionCount + consumption) }
  if online then
    s.emit (Event.publish "water/total" (toString s.waterConsumptionCount) true)
  else if consumption > 0 ∧ s.mqttSendOnConnectWater = false then
    { s with mqttSendOnConnectWater := true }
  else s

/-- The function `readIR()`; `analog` is the value returned by `analogRead(WATER_IR_PIN)`.
Returns the level and the updated globals. -/
def readIR (analog : Int) (s : Gateway) : Int × Gateway :=
  let s : Gateway := { s with waterIrLevelReal := analog }
  let level := if s.fakeIr > 0 then s.fakeIr else analog
  let s : Gateway :=
    if level > s.waterIrMax then { s with waterIrMax := level }
    else if level < s.waterIrMin then
      { s with waterIrMin := level, waterIrMiddle := Int.tdiv (wrap32 (s.waterIrMax + level)) 2 }
    else s
  let s : Gateway := if s.waterIrMiddle < 100 then { s with waterIrMiddle := 200 } else s
  (level, s)

/-- The hysteresis block of `loop()`: the level returned by `readIR` is compared with the
last accepted level and either dropped or accepted. -/
def acceptLevel (level : Int) (s : Gateway) : Gateway :=
  let s : Gateway := { s with waterIrLevel := level }
  let s : Gateway := { s with waterIrDiff := wrap32 (s.waterIrLevel - s.waterLastLevel) }
  if |s.waterIrDiff| < 30 then
    { s with waterIrLevel := s.waterLastLevel, waterIrDiff := 0 }
  else { s with waterLastLevel := s.waterIrLevel }

/-- The debugging block of `loop()` that follows the extremes of the real ADC value. -/
def trackReal (s : Gateway) : Gateway :=
  if s.waterIrLevelReal > s.waterIrMaxReal then { s with waterIrMaxReal := s.waterIrLevelReal }
  else if s.waterIrLevelReal < s.waterIrMinReal then
    { s with waterIrMinReal := s.waterIrLevelReal }
  else s

/-- Branch `case 0` of the `switch (waterState)`. -/
def waterCase0 (s : Gateway) : Gateway :=
  let s : Gateway :=
    if s.waterIrDiff < 0 ∧ s.waterIrLevel > s.waterIrMiddle then
      let s : Gateway := { s with waterState := 1 }
      if s.movingAvrIrMaxCount < 2147483646 then
        { s with movingAvrIrMaxCount := s.movingAvrIrMaxCount + 1 }
      else s
    else s
  s.emit (Event.led true)

/-- Branch `case 1` of the `switch (waterState)`. -/
def waterCase1 (fp : Drift) (s : Gateway) : Gateway :=
  let s : Gateway :=
    if s.waterIrDiff < 0 ∧ s.waterIrLevel < s.waterIrMiddle then
      let s : Gateway := { s with waterIrMax := fp.lower s.waterIrMax s.waterIrMiddle }
      let s : Gateway := { s with waterState := 2 }
      if s.movingAvrIrMidCount1 < 2147483646 then
        { s with movingAvrIrMidCount1 := s.movingAvrIrMidCount1 + 1 }
      else s
    else s
  s.emit (Event.led false)

/-- Branch `case 2` of the `switch (waterState)`. -/
def waterCase2 (s : Gateway) : Gateway :=
  let s : Gateway :=
    if s.waterIrDiff > 0 ∧ s.waterIrLevel < s.waterIrMiddle then
      let s : Gateway := { s with waterState := 3 }
      if s.movingAvrIrMinCount < 2147483646 then
        { s with movingAvrIrMinCount := s.movingAvrIrMinCount + 1 }
      else s
    else s
  s.emit (Event.led true)

/-- Branch `case 3` of the `switch (waterState)`. -/
def waterCase3 (fp : Drift) (online : Bool) (s : Gateway) : Gateway :=
  let s : Gateway :=
    if s.waterIrDiff > 0 ∧ s.waterIrLevel > s.waterIrMiddle then
      let s : Gateway := { s with waterIrMin := fp.raise s.waterIrMin s.waterIrMiddle }
      let s : Gateway := incrementTicks online 1 s
      let s : Gateway := { s with waterState := 0 }
      if s.movingAvrIrMidCount2 < 2147483646 then
        { s with movingAvrIrMidCount2 := s.movingAvrIrMidCount2 + 1 }
      else s
    else s
  s.emit (Event.led false)

/-- The `switch (waterState)` of `loop()`; any other value of `waterState` falls to
`default` and nothing happens. -/
def waterSwitch (fp : Drift) (online : Bool) (s : Gateway) : Gateway :=
  if s.waterState = 0 then waterCase0 s
  else if s.waterState = 1 then waterCase1 fp s
  else if s.waterState = 2 then waterCase2 s
  else if s.waterState = 3 then waterCase3 fp online s
  else s

/-- One sample step of `loop()`: the body of `if (now > waterEntryNext)` from the call of
`readIR` to the end of the `switch`, without the scheduling that surrounds it
(`waterEntryNext` and the restart before the clock overflows).  The four moving averages
are doubles that are only exported for diagnosis; their counters are kept, their values
are not modelled. -/
def waterSample (fp : Drift) (analog : Int) (online : Bool) (s : Gateway) : Gateway :=
  let r := readIR analog s
  waterSwitch fp online (trackReal (acceptLevel r.1 r.2))

/-- Consecutive sample steps, one per element of `samples` (ADC value, link status). -/
def waterRun (fp : Drift) (samples : List (Int × Bool)) (s : Gateway) : Gateway :=
  samples.foldl (fun acc x => waterSample fp x.1 x.2 acc) s

/-- The fields of the detector that decide its behaviour, and the ticks it has signalled:
phase, manual override, lower envelope, middle, last accepted level, level, difference,
consumption total, arguments of the `incrementTicks` calls. -/
structure Core where
  state : Int
  fake : Int
  lo : Int
  mid : Int
  last : Int
  level : Int
  diff : Int
  count : Int
  ticks : List Int

/-- The view of the global state that the pulse detector is driven by. -/
def core (s : Gateway) : Core :=
  { state := s.waterState, fake := s.fakeIr, lo := s.waterIrMin, mid := s.waterIrMiddle,
    last := s.waterLastLevel, level := s.waterIrLevel, diff := s.waterIrDiff,
    count := s.waterConsumptionCount, ticks := tickCalls s.trace }

/-! ## Bus access guard -/

/-- The loop `while ((long)millis() < (long)modbusCooldown) delay(20);` run for at most
`fuel` tests of its condition; `none` when the fuel runs out. -/
def coolWait : Nat → Gateway → Option Gateway
  | 0, _ => none
  | fuel + 1, s =>
    if toLong s.millis < s.modbusCooldown then coolWait fuel (delay 20 s) else some s

/-- Number of loop tests granted to the wait of `modbusCool`.  Steps of 20 ms visit at most
`2^30` different values of the 32-bit clock, so a wait that has not ended by then never
ends. -/
def coolFuel : Nat := 1073741825

/-- The function `modbusCool(coolDownTimeMS)`; `none` when its wait never ends. -/
def modbusCool (coolDownTimeMS : Int) (s : Gateway) : Option Gateway :=
  if toLong s.millis < s.modbusCooldown then
    if s.modbusCooldownHit > 50 then
      let s := s.emit (Event.publish "ventilation/error/modbusCooldown" "1" false)
      let s := s.emit Event.reset
      some { s with rebooted := true }
    else
      let s : Gateway := { s with modbusCooldownHit := wrap32 (s.modbusCooldownHit + 1) }
      (coolWait coolFuel s).map
        (fun s => { s with modbusCooldown := wrap32 (s.millis + coolDownTimeMS) })
  else
    let s : Gateway := if s.modbusCooldownHit > 0 then { s with modbusCooldownHit := 0 } else s
    some { s with modbusCooldown := wrap32 (s.millis + coolDownTimeMS) }

/-- The clock is before the stored deadline: a call of `modbusCool` made now has to wait. -/
def mustWait (s : Gateway) : Bool := decide (toLong s.millis < s.modbusCooldown)

/-- Consecutive calls of `modbusCool`; each element gives the time that passes before the
call and the argument of the call.  The run ends at the first call that reboots. -/
def coolCalls : List (Nat × Int) → Gateway → Option Gateway
  | [], s => some s
  | c :: rest, s =>
    match modbusCool c.2 (elapse c.1 s) with
    | none => none
    | some t => if t.rebooted then some t else coolCalls rest t

/-- Every call of the run finds the clock before the stored deadline, and the deadline
at least 20 ms away from the largest value of a `long`. -/
def allWaiting : List (Nat × Int) → Gateway → Bool
  | [], _ => true
  | c :: rest, s =>
    mustWait (elapse c.1 s) && decide ((elapse c.1 s).modbusCooldown ≤ 2147483627) &&
      match modbusCool c.2 (elapse c.1 s) with
      | none => true
      | some t => allWaiting rest t

/-! ## Connection supervisors -/

/-- Answers of the platform during one call of a supervisor. -/
structure Link where
  /-- Value of `WiFi.status() == WL_CONNECTED`. -/
  wifiUp : Bool
  /-- Value of `WiFi.waitForConnectResult() == WL_CONNECTED`. -/
  wifiWait : Bool
  /-- Value of `mqttClient.connected()`. -/
  mqttUp : Bool
  /-- Result of `mqttClient.connect(...)`. -/
  mqttConnect : Bool

/-- The function `wifiHandle()`. -/
def wifiHandle (env : Link) (s : Gateway) : Gateway :=
  match s.wifiConnectState with
  | ConnectState.CONNECT_START =>
    let s := s.emit Event.wifiBegin
    { s with wifiConnectState := ConnectState.CONNECT_WAIT,
             wifiConnectFailTime := (s.millis + 300000) % 4294967296 }
  | ConnectState.CONNECT_WAIT =>
    if env.wifiWait then
      let s := s.emit Event.servicesBegin
      { s with wifiConnectState := ConnectState.CONNECT_SUCCESS }
    else if s.millis > s.wifiConnectFailTime then
      { s with wifiConnectState := ConnectState.CONNECT_FAILURE }
    else s
  | ConnectState.CONNECT_SUCCESS =>
    if env.wifiUp = false then { s with wifiConnectState := ConnectState.CONNECT_START } else s
  | ConnectState.CONNECT_FAILURE =>
    let s := delay 1000 s
    let s := s.emit Event.restart
    { s with rebooted := true }

/-- The statements of `case CONNECT_WAIT:` in `mqttReconnect`, which `case CONNECT_SUCCESS:`
falls through to. -/
def mqttWaitCase (s : Gateway) : Gateway :=
  if s.millis > s.mqttConnectNext then { s with mqttConnectState := ConnectState.CONNECT_START }
  else s

/-- The statements of `case CONNECT_START:` in `mqttReconnect`. -/
def mqttStartCase (env : Link) (s : Gateway) : Gateway :=
  if env.mqttConnect then
    let s := s.emit (Event.publish "ventilation/alive" "1" true)
    let s := s.emit (Event.subscribe "ventilation/cmd/+")
    let s := s.emit (Event.subscribe "water/cmd/+")
    let s : Gateway :=
      if s.mqttSendOnConnectWater then
        incrementTicks (env.mqttUp && env.wifiUp) 0 { s with mqttSendOnConnectWater := false }
      else s
    { s with mqttConnectState := ConnectState.CONNECT_SUCCESS, numberRetries := 0 }
  else
    let s : Gateway := { s with numberRetries := wrap32 (s.numberRetries + 1) }
    if s.numberRetries > 50 then { s with mqttConnectState := ConnectState.CONNECT_FAILURE }
    else if env.wifiUp = false then wifiHandle env { s with numberRetries := 0 }
    else
      let s : Gateway := { s with mqttConnectState := ConnectState.CONNECT_WAIT,
                                  mqttConnectNext := (s.millis + 5000) % 4294967296 }
      delay 5 s

/-- The function `mqttReconnect()`. -/
def mqttReconnect (env : Link) (s : Gateway) : Gateway :=
  match s.mqttConnectState with
  | ConnectState.CONNECT_SUCCESS =>
    let s : Gateway :=
      if env.mqttUp = false then { s with mqttConnectState := ConnectState.CONNECT_START } else s
    mqttWaitCase s
  | ConnectState.CONNECT_WAIT => mqttWaitCase s
  | ConnectState.CONNECT_START => mqttStartCase env s
  | ConnectState.CONNECT_FAILURE =>
    let s := delay 1000 s
    let s := s.emit Event.restart
    { s with rebooted := true }

/-- The array `ventAlarmListNumber`. -/
def ventAlarmListNumber : List Int :=
  [0, 1, 2, 3, 4, 5, 6, 7, 8, 9, 10, 11, 12, 13, 14, 15, 16, 17, 18, 19, 20, 21, 22, 23, 24,
    25, 26, 27, 28, 29, 30, 31, 32, 33, 34, 35, 36, 37, 38, 39, 40, 41, 42, 43, 44, 45, 46, 47,
    48, 49, 50, 51, 52, 53, 54, 55, 56, 57, 58, 70, 71, 90, 91, 92]

/-- The array `ventAlarmListText`. -/
def ventAlarmListText : List String :=
  ["NONE", "HARDWARE", "TIMEOUT", "FIRE", "PRESSURE", "DOOR", "DEFROST", "FROST", "FROST",
    "OVERTEMP", "OVERHEAT", "AIRFLOW", "THERMO", "BOILING", "SENSOR", "ROOM LOW", "SOFTWARE",
    "WATCHDOG", "CONFIG", "FILTER", "LEGIONEL", "POWER", "T AIR", "T WATER", "T HEAT", "MODEM",
    "INSTABUS", "T1SHORT", "T1OPEN", "T2SHORT", "T2OPEN", "T3SHORT", "T3OPEN", "T4SHORT",
    "T4OPEN", "T5SHORT", "T5OPEN", "T6SHORT", "T6OPEN", "T7SHORT", "T7OPEN", "T8SHORT",
    "T8OPEN", "T9SHORT", "T9OPEN", "T10SHORT", "T10OPEN", "T11SHORT", "T11OPEN", "T12SHORT",
    "T12OPEN", "T13SHORT", "T13OPEN", "T14SHORT", "T14OPEN", "T15SHORT", "T15OPEN", "T16SHORT",
    "T16OPEN", "ANODE", "EXCH INFO", "SLAVE IO", "OPT IO", "PRESET", "INSTABUS"]

/-- The bound `sizeof(ventAlarmListNumber)` of the lookup loop: the size of the array in
bytes, two for each `int16_t` entry. -/
def sizeofVentAlarmListNumber : Nat := 2 * ventAlarmListNumber.length

/-- The lookup loop over `p`: `n` iterations are left, `p` is the current index.  The
buffer holds "UNKNOWN" unless an entry equal to `w` is met, whose text then replaces it.
The result is `none` when the loop reads `ventAlarmListNumber[p]` or `ventAlarmListText[p]`
at an index that the array does not have. -/
def alarmScan (w : Int) : Nat → Nat → Option String
  | 0, _ => some "UNKNOWN"
  | n + 1, p =>
    match ventAlarmListNumber[p]? with
    | none => none
    | some v => if v = w then ventAlarmListText[p]? else alarmScan w n (p + 1)

/-- The conversion `%02d` of `sprintf`. -/
def fmt02d (n : Int) : String := if 0 ≤ n ∧ n < 10 then "0" ++ toString n else toString n

/-- Rendering of an alarm id word (`case 1`, `case 4`, `case 7`). -/
def alarmIdString (w : Int) : Option String :=
  if w > 0 then alarmScan w sizeofVentAlarmListNumber 0 else some "None"

/-- Rendering of an alarm date word (`case 2`, `case 5`, `case 8`): the characters that the
three `sprintf` calls write, one after the other.  The capacity of the buffer
`numberString` that receives them is not part of this definition. -/
def alarmDateString (w : Int) : String :=
  if w > 0 then
    toString ((w >>> 9) + 1980) ++ ("-" ++ fmt02d ((Int.land w 0x1E0) >>> 5)) ++
      ("-" ++ fmt02d (Int.land w 0x1F))
  else "N/A"

/-- Rendering of an alarm time word (`case 3`, `case 6`, `case 9`): the characters that the
three `sprintf` calls write. -/
def alarmTimeString (w : Int) : String :=
  if w > 0 then
    fmt02d (w >>> 11) ++ (":" ++ fmt02d ((Int.land w 0x7E0) >>> 5)) ++
      (":" ++ fmt02d ((Int.land w 0x11F) * 2))
  else "N/A"

/-- The `switch (i)` of `case reqalarm:`: the text left in `numberString` for the word `w`
at index `i` of the alarm group. -/
def alarmString (i : Nat) (w : Int) : Option String :=
  if i = 1 ∨ i = 4 ∨ i = 7 then alarmIdString w
  else if i = 2 ∨ i = 5 ∨ i = 8 then some (alarmDateString w)
  else if i = 3 ∨ i = 6 ∨ i = 9 then some (alarmTimeString w)
  else some (toString w)

/-- Decimal digit character of `n % 10`. -/
def digitChar (n : Nat) : Char := Char.ofNat (48 + n % 10)

/-- The zero-padded text `YYYY-MM-DD` of a calendar date. -/
def isoDate (year month day : Nat) : String :=
  String.mk [digitChar (year / 1000), digitChar (year / 100), digitChar (year / 10),
    digitChar year, '-', digitChar (month / 10), digitChar month, '-',
    digitChar (day / 10), digitChar day]

/-- The zero-padded text `HH:MM:SS` of a time of day. -/
def clockTime (hour minute second : Nat) : String :=
  String.mk [digitChar (hour / 10), digitChar hour, ':', digitChar (minute / 10),
    digitChar minute, ':', digitChar (second / 10), digitChar second]

/-! ## Register catalog and the read operation of `HandleRequest` -/

/-- The constant `MAX_REG_SIZE`. -/
def MAX_REG_SIZE : Nat := 26

/-- The enumerator `reqmax`. -/
def reqmax : Nat := 20

/-- The array `ventGroups`. -/
def ventGroups : List String :=
  ["temp1", "temp2", "temp3", "alarm", "time", "control", "speed", "airtemp", "airflow",
    "airheat", "program", "user", "user2", "info", "inputairtemp", "app", "output", "display1",
    "display2", "display"]

/-- The array `ventRegistrationAddresses`. -/
def ventRegistrationAddresses : List Int :=
  [203, 207, 221, 400, 300, 1000, 200, 1200, 1100, 0, 500, 600, 610, 100, 1200, 0, 100, 2002,
    2007, 3000]

/-- The array `ventRegistrationSizes`. -/
def ventRegistrationSizes : List Nat :=
  [2, 2, 1, 10, 6, 8, 2, 6, 2, 0, 1, 6, 6, 14, 1, 4, 26, 4, 4, 1]

/-- The array `ventRegistrationTypes`. -/
def ventRegistrationTypes : List Nat :=
  [8, 8, 8, 0, 1, 1, 1, 1, 1, 1, 1, 1, 1, 0, 0, 2, 1, 4, 4, 8]

/-- The initialisers of `ventRegistrationNames`, one row per group, `none` for `NULL`. -/
def ventRegistrationNamesInit : List (List (Option String)) :=
  [[some "T3_Exhaust", some "T4_Outlet"],
   [some "T7_Inlet", some "T8_Outdoor", none, none, none, none, none, none, some "T15_Room",
     none, none, none, none, none, some "RH", none],
   [some "RH"],
   [some "Status", some "List_1_ID", some "List_1_Date", some "List_1_Time", some "List_2_ID",
     some "List_2_Date", some "List_2_Time", some "List_3_ID", some "List_3_Date",
     some "List_3_Time"],
   [some "Second", some "Minute", some "Hour", some "Day", some "Month", some "Year"],
   [some "Type", some "RunSet", some "ModeSet", some "VentSet", some "TempSet",
     some "ServiceMode", some "ServicePct", some "Preset"],
   [some "ExhaustSpeed", some "InletSpeed"],
   [some "CoolSet", some "TempMinSum", some "TempMinWin", some "TempMaxSum",
     some "TempMaxWin", some "TempSummer"],
   [some "AirExchMode", some "CoolVent"],
   [],
   [some "Program"],
   [some "UserFuncAct", some "UserFuncSet", some "UserTimeSet", some "UserVentSet",
     some "UserTempSet", some "UserOffsSet"],
   [some "User2FuncAct", some "User2FuncSet", some "User2TimeSet", some "User2VentSet",
     some "User2TempSet", some "User2OffsSet"],
   [some "UserFunc", some "AirFilter", some "DoorOpen", some "Smoke", some "MotorThermo",
     some "Frost_overht", some "AirFlow", some "P_Hi", some "P_Lo", some "Boil",
     some "3WayPos", some "DefrostHG", some "Defrost", some "UserFunc_2"],
   [some "IsSummer", some "TempInletSet", some "TempControl", some "TempRoom", some "EffPct",
     some "CapSet", some "CapAct"],
   [some "Bus.Version", some "VersionMajor", some "VersionMinor", some "VersionRelease"],
   [some "AirFlap", some "SmokeFlap", some "BypassOpen", some "BypassClose",
     some "AirCircPump", some "AirHeatAllow", some "AirHeat_1", some "AirHeat_2",
     some "AirHeat_3", some "Compressor", some "Compressor_2", some "4WayCool",
     some "HotGasHeat", some "HotGasCool", some "CondOpen", some "CondClose",
     some "WaterHeat", some "3WayValve", some "CenCircPump", some "CenHeat_1",
     some "CenHeat_2", some "CenHeat_3", some "CenHeatExt", some "UserFunc",
     some "UserFunc_2", some "Defrosting"],
   [some "Text_1_2", some "Text_3_4", some "Text_5_6", some "Text_7_8"],
   [some "Text_9_10", some "Text_11_12", some "Text_13_14", some "Text_15_16"],
   [some "AirBypass/IsOpen"]]

/-- The array `ventRegistrationNames` as it lies in memory: every row filled up with `NULL`
to `MAX_REG_SIZE` entries, the rows one after the other. -/
def ventRegistrationNames : List (Option String) :=
  ventRegistrationNamesInit.flatMap
    (fun row => row ++ List.replicate (MAX_REG_SIZE - row.length) none)

/-- The function `getName(type, address)`; `none` is the null pointer. -/
def getName (type : Nat) (address : Int) : Option String :=
  if address ≥ 0 ∧ address ≤ (ventRegistrationSizes.getD type 0 : Int) then
    ventRegistrationNames.getD (type * MAX_REG_SIZE + address.toNat) none
  else none

/-- A value stored in the JSON answer.  `float q` is the double that the division of an
integer by `100.0` yields, written as the exact quotient `q` that it rounds. -/
inductive JsonValue where
  | str (s : String)
  | float (q : ℚ)
  | int (n : Int)
  deriving DecidableEq

/-- Modelled from the spec: the characters that `String::trim` removes.  The Arduino
`String` class is library code outside the sources; the spec has the decoder trim a
leading blank and gives word 0x0041, whose high byte is zero, as trimmed to "A", and the
sketch itself describes `trim` as removing leading and trailing whitespace.  A blank is
therefore the zero byte or a whitespace character of `isspace`. -/
def isBlank (c : Nat) : Bool := c = 0 || c = 32 || (9 ≤ c && c ≤ 13)

/-- Modelled from the spec: `String::trim`, which is missing from the sources, removes the
blanks at both ends. -/
def trimBlank (l : List Nat) : List Nat :=
  ((l.dropWhile isBlank).reverse.dropWhile isBlank).reverse

/-- The packed-ASCII branch of the read decode: the low byte is appended to an empty
string, the high byte is put in front of it, and the result is trimmed. -/
def packedAscii (w : Int) : String :=
  let lo : Nat := (Int.land w 0x00ff).toNat
  let hi : Nat := ((w >>> 8) % 256).toNat
  String.mk ((trimBlank ([hi] ++ ([] ++ [lo]))).map Char.ofNat)

/-- The value stored for the word `w` at index `i` of a group of catalog type `type`. -/
def readValue (type : Nat) (i : Nat) (w : Int) : JsonValue :=
  if (type = 2 ∧ i > 0) ∨ type = 4 then JsonValue.str (packedAscii w)
  else if type = 8 then JsonValue.float ((w : ℚ) / 100)
  else JsonValue.int w

/-- One iteration of the decode loop of the read operation: the assignment
`root[name] = value` it makes, if any. -/
def readEntry (r type i : Nat) (rsBuffer : List Int) : Option (String × JsonValue) :=
  match getName r i with
  | none => none
  | some name =>
    if name.length > 0 then some (name, readValue type i (rsBuffer.getD i 0)) else none

/-- The decode loop of the read operation of `HandleRequest` after a successful bus read:
the assignments `root[name] = value` in the order they are made.  `none` when `r` is not
an index of the catalog arrays. -/
def readFields (r : Nat) (rsBuffer : List Int) : Option (List (String × JsonValue)) :=
  match ventRegistrationTypes[r]?, ventRegistrationSizes[r]? with
  | some type, some nums =>
    some ((List.range nums).filterMap (fun i => readEntry r type i rsBuffer))
  | _, _ => none

/-- The names that `ventRegistrationNames` declares for group `r`: the entries of its row
that are neither `NULL` nor empty, in table order. -/
def declaredNames (r : Nat) : List String :=
  (ventRegistrationNamesInit.getD r []).filterMap
    (fun n => match n with
      | some name => if name.length > 0 then some name else none
      | none => none)

/-- The names declared for group `r` at the positions below its word count. -/
def readableNames (r : Nat) : List String :=
  ((ventRegistrationNamesInit.getD r []).take (ventRegistrationSizes.getD r 0)).filterMap
    (fun n => match n with
      | some name => if name.length > 0 then some name else none
      | none => none)

/-! ## Reads of the alarm id lookup -/

/-- The indices `p` at which the lookup loop of the alarm id reads
`ventAlarmListNumber[p]`, in the order of the reads: `n` iterations are left, `p` is the
current index.  The loop stops at the first entry equal to `w`, whose index is also the
one at which it reads `ventAlarmListText[p]`; the list ends with the first index that the
array does not have, if the loop gets there. -/
def alarmScanReads (w : Int) : Nat → Nat → List Nat
  | 0, _ => []
  | n + 1, p =>
    match ventAlarmListNumber[p]? with
    | none => [p]
    | some v => if v = w then [p] else p :: alarmScanReads w n (p + 1)

/-! ## Bus transactions -/

/-- The constant `VENTSET`. -/
def VENTSET : Int := 1003
/-- The constant `RUNSET`. -/
def RUNSET : Int := 1001
/-- The constant `MODESET`. -/
def MODESET : Int := 1002
/-- The constant `TEMPSET`. -/
def TEMPSET : Int := 1004
/-- The constant `PROGRAMSET`. -/
def PROGRAMSET : Int := 500

/-- The function `WriteModbus(addr, val)` with its arguments converted to `uint16_t` and
`int16_t`; `none` when the wait of the bus guard never ends.  A reset by the guard ends
the function before the bus transaction. -/
def WriteModbus (addr val : Int) (s : Gateway) : Option Gateway :=
  let s := s.emit (Event.writeModbus (addr % 65536) (wrap16 val))
  (modbusCool 200 s).map
    (fun t => if t.rebooted then t else t.emit (Event.busWrite (addr % 65536) (wrap16 val)))

/-- The function `ReadModbus(addr, sizer, vals, type)` up to the bus transaction, whose
result code and response words come from the controller; `none` when the wait of the bus
guard never ends. -/
def ReadModbus (addr : Int) (sizer : Nat) (type : Int) (s : Gateway) : Option Gateway :=
  (modbusCool 200 s).map
    (fun t => if t.rebooted then t
      else t.emit (Event.busRead (decide (type % 2 = 1)) (addr % 65536) (sizer % 256)))

/-- The `WriteModbus` calls recorded in a trace, oldest first: register and value. -/
def writeCalls : List Event → List (Int × Int)
  | [] => []
  | Event.writeModbus addr val :: rest => (addr, val) :: writeCalls rest
  | _ :: rest => writeCalls rest

/-! ## Inbound commands -/

/-- The body of a set-point branch of `mqttCallback` whose payload passed the check: the
register write, the publication that clears the retained command, and the assignment
`ventEntryNext = 0` that `triggeredVentilation` leads to at the end of the callback. -/
def setPoint (topic : String) (addr val : Int) (s : Gateway) : Option Gateway :=
  (WriteModbus addr val s).map
    (fun t => if t.rebooted then t
      else { t.emit (Event.publish topic "" true) with ventEntryNext := 0 })

/-- A set-point branch of `mqttCallback` that takes one digit from `'0'` to the character
with code `top`. -/
def digitCommand (topic : String) (addr : Int) (top : Nat) (payload : List Nat)
    (s : Gateway) : Option Gateway :=
  if payload.length = 1 ∧ payload.getD 0 0 ≥ 48 ∧ payload.getD 0 0 ≤ top then
    setPoint topic addr ((payload.getD 0 0 : Int) - 48) s
  else some s

/-- The function `mqttCallback(topic, payload, length)` for the set-point commands, the
readout request, the two topics that carry the consumption total, and unknown topics.
`toInt` is `String::toInt` applied to the payload, `online` the link status that
`incrementTicks` reads.  The result is `none` when the callback has no result in this
model: the wait of the bus guard never ends, or the topic is one of `update`, `reboot`,
`version`, `water/cmd/readout` and `water/cmd/irlvl`, whose branches are not modelled. -/
def mqttCallback (toInt : List Nat → Int) (online : Bool) (topic : String)
    (payload : List Nat) (s : Gateway) : Option Gateway :=
  if topic = "ventilation/cmd/ventset" then digitCommand topic VENTSET 52 payload s
  else if topic = "ventilation/cmd/modeset" then digitCommand topic MODESET 52 payload s
  else if topic = "ventilation/cmd/runset" then digitCommand topic RUNSET 49 payload s
  else if topic = "ventilation/cmd/tempset" then
    if payload.length > 0 ∧ toInt payload ≥ 5 ∧ toInt payload ≤ 25 then
      setPoint topic TEMPSET (toInt payload * 100) s
    else some s
  else if topic = "ventilation/cmd/programset" then
    digitCommand topic PROGRAMSET 52 payload s
  else if topic = "ventilation/cmd/update" ∨ topic = "ventilation/cmd/reboot" ∨
      topic = "water/cmd/reboot" ∨ topic = "ventilation/cmd/version" then none
  else if topic = "ventilation/cmd/readout" then
    if payload.length > 0 then
      some { s.emit (Event.publish "ventilation/cmd/readout" "" true) with ventEntryNext := 0 }
    else some s
  else if topic = "water/cmd/total" then
    if payload.length > 0 then
      let s := s.emit (Event.publish "water/cmd/total" "" true)
      let s : Gateway := { s with waterConsumptionCount := wrap32 (toInt payload) }
      some (incrementTicks online 0 s)
    else some s
  else if topic = "water/cmd/readout" ∨ topic = "water/cmd/irlvl" then none
  else if s.waterWaitingForConsumptionCount = true ∧ topic = "water/total" then
    let s : Gateway := { s with waterWaitingForConsumptionCount := false }
    let s := s.emit (Event.unsubscribe "water/total")
    let s : Gateway := { s with waterConsumptionCount := wrap32 (toInt payload) }
    some (s.emit (Event.publish "water/debug/totalRecovery"
      (String.mk (payload.map Char.ofNat)) false))
  else some (s.emit (Event.publish "ventilation/error/topic" topic false))

/-- A decimal reading of a payload of digits, with an optional minus sign in front; any
other payload reads as 0.  It stands in for `String::toInt` where a run needs one. -/
def decimalValue : List Nat → Int
  | [] => 0
  | 45 :: rest =>
    if rest ≠ [] ∧ rest.all (fun c => decide (48 ≤ c ∧ c ≤ 57)) then
      -(rest.foldl (fun acc c => acc * 10 + ((c : Int) - 48)) 0)
    else 0
  | digits =>
    if digits.all (fun c => decide (48 ≤ c ∧ c ≤ 57)) then
      digits.foldl (fun acc c => acc * 10 + ((c : Int) - 48)) 0
    else 0

/-! ## Polling loop -/

/-- The topic under which the polling loop publishes the field `name` of group `r`, without
the field name: the `switch (r)` of `loop()`. -/
def pollTopic (r : Nat) (name : String) : String :=
  if r = 5 then "ventilation/control/"
  else if r = 4 then "ventilation/time/"
  else if r = 16 then "ventilation/output/"
  else if r = 19 then "ventilation/display/"
  else if r = 6 then "ventilation/speed/"
  else if r = 3 then "ventilation/alarm/"
  else if r = 14 then "ventilation/inputairtemp/"
  else if r = 10 then "ventilation/weekprogram/"
  else if r = 11 then "ventilation/user/"
  else if r = 12 then "ventilation/user/"
  else if r = 13 then "ventilation/info/"
  else if r = 0 ∨ r = 1 ∨ r = 2 then
    if name.data.take 2 = ['R', 'H'] then "ventilation/moist/" else "ventilation/temp/"
  else "ventilation/unmapped/"

/-- The loop over the words of a group after a successful read: one publication for each
named index.  `render r i name w` is the text left in `numberString` for the word `w`;
the loop is defined for every such function. -/
def pollPublish (render : Nat → Nat → String → Int → String) (r : Nat)
    (rsBuffer : List Int) (s : Gateway) : Gateway :=
  (List.range (ventRegistrationSizes.getD r 0)).foldl
    (fun acc (i : Nat) =>
      match getName r i with
      | none => acc
      | some name =>
        if name.length > 0 then
          acc.emit (Event.publish (pollTopic r name ++ name)
            (render r i name (rsBuffer.getD i 0)) false)
        else acc)
    s

/-- What the polling loop does with the result of one `ReadModbus`: `result` is the
result code, 0 for success, `rsBuffer` the words received. -/
def pollResult (render : Nat → Nat → String → Int → String) (r result : Nat)
    (rsBuffer : List Int) (s : Gateway) : Gateway :=
  if result = 0 then
    let s : Gateway :=
      if s.modbusErrorActive = true then
        { s.emit (Event.publish "ventilation/error/modbus" "0" false) with
          modbusErrorActive := false }
      else s
    pollPublish render r rsBuffer s
  else if s.modbusErrorActive = false then
    { s.emit (Event.publish "ventilation/error/modbus" "1" false) with
      modbusErrorActive := true }
  else s

/-- One read of the polling loop: the call of `ReadModbus` for group `r` and the handling
of its result; `none` when the wait of the bus guard never ends. -/
def pollGroup (render : Nat → Nat → String → Int → String) (r result : Nat)
    (rsBuffer : List Int) (s : Gateway) : Option Gateway :=
  (ReadModbus (ventRegistrationAddresses.getD r 0) (ventRegistrationSizes.getD r 0)
      (ventRegistrationTypes.getD r 0) s).map
    (fun t => if t.rebooted then t else pollResult render r result rsBuffer t)

/-- One read of a run of the polling loop: the time that passes before it, the group, the
result code of the bus and the words received. -/
structure PollRead where
  wait : Nat
  group : Nat
  result : Nat
  words : List Int

/-- Consecutive reads of the polling loop; the run ends at the first read that reboots. -/
def pollRun (render : Nat → Nat → String → Int → String) :
    List PollRead → Gateway → Option Gateway
  | [], s => some s
  | c :: rest, s =>
    match pollGroup render c.group c.result c.words (elapse c.wait s) with
    | none => none
    | some t => if t.rebooted then some t else pollRun render rest t

/-- The values published on the topic `error/modbus` in a trace, oldest first. -/
def flagValues : List Event → List String
  | [] => []
  | Event.publish topic payload _ :: rest =>
    if topic = "ventilation/error/modbus" then payload :: flagValues rest
    else flagValues rest
  | _ :: rest => flagValues rest

/-! ## Text rendered by the polling loop -/

/-- The number of bytes of the buffer `char numberString[10]`. -/
def numberStringSize : Nat := 10

/-- The array `rr` of the polling loop: the groups it reads, in order. -/
def polledGroups : List Nat := [0, 1, 2, 5, 3, 14, 10, 19, 11]

/-- The characters that the `switch (r)` of the polling loop writes to `numberString` for
the word `w` at index `i` of group `r`, whose field name is `name`; the terminating zero
byte that follows them is not part of the text.  `dtostrf x width prec` is the text of the
library conversion of the double `x`, given as the exact quotient that it rounds; the
function is defined for every such conversion.  The result is `none` when the branch
leaves no defined text: the alarm id lookup reads past its table, or the `default` branch
writes nothing to the uninitialised buffer. -/
def numberString (dtostrf : ℚ → Int → Nat → String) (r i : Nat) (name : String) (w : Int) :
    Option String :=
  if r = 5 then
    if name.data.take 7 = ['T', 'e', 'm', 'p', 'S', 'e', 't'] then
      some (dtostrf ((Int.tdiv w 100 : Int) : ℚ) 1 0)
    else some (toString w)
  else if r = 4 ∨ r = 16 ∨ r = 19 ∨ r = 6 then some (toString w)
  else if r = 3 then alarmString i w
  else if r = 14 ∨ r = 10 ∨ r = 11 ∨ r = 12 ∨ r = 13 then some (toString w)
  else if r = 0 ∨ r = 1 ∨ r = 2 then some (dtostrf ((w : ℚ) / 100) 5 2)
  else none

/-! ## Group lookup of `HandleRequest` -/

/-- The lookup at the start of `HandleRequest`: `r` starts as `reqmax`; when the group
string is not empty the loop over `i < reqmax` assigns `i` to `r` at every entry of
`ventGroups` equal to the group string.  The result is the value of `r` after the loop. -/
def requestGroup (group : String) : Nat :=
  if group ≠ "" then
    (List.range reqmax).foldl
      (fun r i => if ventGroups.getD i "" = group then i else r) reqmax
  else reqmax

/-- The reads of the catalog arrays that `HandleRequest` makes with the index `r`, in
order, each as the name of the array and the index: `ventRegistrationTypes[r]` for every
request, then `ventRegistrationAddresses[r]` and `ventRegistrationSizes[r]` when the
operation is `read`. -/
def catalogReads (operation group : String) : List (String × Nat) :=
  let r := requestGroup group
  [("ventRegistrationTypes", r)] ++
    (if operation = "read" then
      [("ventRegistrationAddresses", r), ("ventRegistrationSizes", r)]
     else [])

/-! ## Lemmas on machine integers and traces -/

theorem wrap32_of_range (x : Int) (h1 : -2147483648 ≤ x) (h2 : x < 2147483648) :
    wrap32 x = x := by
  unfold wrap32; omega

theorem tickCalls_append (a b : List Event) :
    tickCalls (a ++ b) = tickCalls a ++ tickCalls b := by
  induction a with
  | nil => rfl
  | cons e rest ih => cases e <;> simp [tickCalls, ih]

/-! ## Pulse detector: one sample step, block by block -/

theorem readIR_quiet (s : Gateway) (x : Int) (hf : s.fakeIr ≤ 0) (hmin : s.waterIrMin ≤ x)
    (hmid : 100 ≤ s.waterIrMiddle) :
    (readIR x s).1 = x ∧ core (readIR x s).2 = core s := by
  unfold readIR core
  have h1 : ¬ (s.fakeIr > 0) := by omega
  have h2 : ¬ (x < s.waterIrMin) := by omega
  have h3 : ¬ (s.waterIrMiddle < 100) := by omega
  simp only [h1, h2, h3, if_false]
  split_ifs <;> simp_all

theorem trackReal_core (s : Gateway) : core (trackReal s) = core s := by
  unfold trackReal core
  split_ifs <;> rfl

theorem acceptLevel_far (s : Gateway) (x : Int) (h0 : -2147483648 ≤ x - s.waterLastLevel)
    (h1 : x - s.waterLastLevel < 2147483648) (hd : 30 ≤ |x - s.waterLastLevel|) :
    core (acceptLevel x s) =
      { core s with last := x, level := x, diff := x - s.waterLastLevel } := by
  unfold acceptLevel core
  simp only [wrap32_of_range _ h0 h1]
  rw [if_neg (by omega)]

theorem waterCase0_fire (s : Gateway) (h1 : s.waterIrDiff < 0)
    (h2 : s.waterIrLevel > s.waterIrMiddle) :
    core (waterCase0 s) = { core s with state := 1 } := by
  unfold waterCase0 core Gateway.emit
  simp only [h1, h2, and_self, if_true]
  split_ifs <;> simp [tickCalls_append, tickCalls]

theorem waterCase1_fire (fp : Drift) (s : Gateway) (h1 : s.waterIrDiff < 0)
    (h2 : s.waterIrLevel < s.waterIrMiddle) :
    core (waterCase1 fp s) = { core s with state := 2 } := by
  unfold waterCase1 core Gateway.emit
  simp only [h1, h2, and_self, if_true]
  split_ifs <;> simp [tickCalls_append, tickCalls]

theorem waterCase2_fire (s : Gateway) (h1 : s.waterIrDiff > 0)
    (h2 : s.waterIrLevel < s.waterIrMiddle) :
    core (waterCase2 s) = { core s with state := 3 } := by
  unfold waterCase2 core Gateway.emit
  simp only [h1, h2, and_self, if_true]
  split_ifs <;> simp [tickCalls_append, tickCalls]

theorem incrementTicks_core (online : Bool) (c : Int) (s : Gateway) :
    core (incrementTicks online c s) =
      { core s with count := wrap32 (s.waterConsumptionCount + c),
                    ticks := tickCalls s.trace ++ [c] } := by
  unfold incrementTicks core Gateway.emit
  dsimp only
  split_ifs <;> simp [tickCalls_append, tickCalls]

theorem waterCase3_fire (fp : Drift) (online : Bool) (s : Gateway) (h1 : s.waterIrDiff > 0)
    (h2 : s.waterIrLevel > s.waterIrMiddle) :
    core (waterCase3 fp online s) =
      { core s with state := 0, lo := fp.raise s.waterIrMin s.waterIrMiddle,
                    count := wrap32 (s.waterConsumptionCount + 1),
                    ticks := tickCalls s.trace ++ [1] } := by
  have hi := incrementTicks_core online 1
    { s with waterIrMin := fp.raise s.waterIrMin s.waterIrMiddle }
  unfold core at hi
  simp only [Core.mk.injEq] at hi
  obtain ⟨e1, e2, e3, e4, e5, e6, e7, e8, e9⟩ := hi
  unfold waterCase3 core Gateway.emit
  simp only [h1, h2, and_self, if_true]
  split_ifs <;> simp [tickCalls_append, tickCalls, e1, e2, e3, e4, e5, e6, e7, e8, e9]

/-- An accepted sample inside the envelope floor: the blocks before the `switch` only
record the level and the difference. -/
theorem sample_far (fp : Drift) (s : Gateway) (x : Int) (online : Bool)
    (hf : s.fakeIr ≤ 0) (hmin : s.waterIrMin ≤ x) (hmid : 100 ≤ s.waterIrMiddle)
    (h0 : -2147483648 ≤ x - s.waterLastLevel) (h1 : x - s.waterLastLevel < 2147483648)
    (hd : 30 ≤ |x - s.waterLastLevel|) :
    ∃ t, waterSample fp x online s = waterSwitch fp online t ∧
      core t = { core s with last := x, level := x, diff := x - s.waterLastLevel } := by
  obtain ⟨e1, e2⟩ := readIR_quiet s x hf hmin hmid
  have hl : (readIR x s).2.waterLastLevel = s.waterLastLevel := congrArg Core.last e2
  refine ⟨trackReal (acceptLevel (readIR x s).1 (readIR x s).2), rfl, ?_⟩
  rw [trackReal_core, e1, acceptLevel_far _ x (by rw [hl]; exact h0) (by rw [hl]; exact h1)
    (by rw [hl]; exact hd), e2, hl]

/-! ## Pulse detector: the four phase transitions at the default thresholds -/

theorem phase0_step (fp : Drift) (s : Gateway) (x : Int) (online : Bool)
    (f L lv df c : Int) (t : List Int)
    (hc : core s = ⟨0, f, 100, 400, L, lv, df, c, t⟩) (hf : f ≤ 0)
    (hL0 : 0 ≤ L) (hL1 : L ≤ 1023) (hx0 : 100 ≤ x) (hx1 : x ≤ 1023)
    (hd : x + 30 ≤ L) (hm : 400 < x) :
    core (waterSample fp x online s) = ⟨1, f, 100, 400, x, x, x - L, c, t⟩ := by
  have hfake : s.fakeIr = f := congrArg Core.fake hc
  have hlo : s.waterIrMin = 100 := congrArg Core.lo hc
  have hmid : s.waterIrMiddle = 400 := congrArg Core.mid hc
  have hlast : s.waterLastLevel = L := congrArg Core.last hc
  obtain ⟨u, e, hu⟩ := sample_far fp s x online (by omega) (by omega) (by omega)
    (by omega) (by omega) (by rw [hlast, abs_of_nonpos (by omega)]; omega)
  rw [hc, hlast] at hu
  have us : u.waterState = 0 := congrArg Core.state hu
  have ud : u.waterIrDiff = x - L := congrArg Core.diff hu
  have ul : u.waterIrLevel = x := congrArg Core.level hu
  have um : u.waterIrMiddle = 400 := congrArg Core.mid hu
  rw [e]
  unfold waterSwitch
  rw [if_pos us, waterCase0_fire u (by omega) (by omega), hu]

theorem phase1_step (fp : Drift) (s : Gateway) (x : Int) (online : Bool)
    (f L lv df c : Int) (t : List Int)
    (hc : core s = ⟨1, f, 100, 400, L, lv, df, c, t⟩) (hf : f ≤ 0)
    (hL0 : 0 ≤ L) (hL1 : L ≤ 1023) (hx0 : 100 ≤ x) (hx1 : x ≤ 1023)
    (hd : x + 30 ≤ L) (hm : x < 400) :
    core (waterSample fp x online s) = ⟨2, f, 100, 400, x, x, x - L, c, t⟩ := by
  have hfake : s.fakeIr = f := congrArg Core.fake hc
  have hlo : s.waterIrMin = 100 := congrArg Core.lo hc
  have hmid : s.waterIrMiddle = 400 := congrArg Core.mid hc
  have hlast : s.waterLastLevel = L := congrArg Core.last hc
  obtain ⟨u, e, hu⟩ := sample_far fp s x online (by omega) (by omega) (by omega)
    (by omega) (by omega) (by rw [hlast, abs_of_nonpos (by omega)]; omega)
  rw [hc, hlast] at hu
  have us : u.waterState = 1 := congrArg Core.state hu
  have ud : u.waterIrDiff = x - L := congrArg Core.diff hu
  have ul : u.waterIrLevel = x := congrArg Core.level hu
  have um : u.waterIrMiddle = 400 := congrArg Core.mid hu
  rw [e]
  unfold waterSwitch
  rw [if_neg (by omega), if_pos us, waterCase1_fire fp u (by omega) (by omega), hu]

theorem phase2_step (fp : Drift) (s : Gateway) (x : Int) (online : Bool)
    (f L lv df c : Int) (t : List Int)
    (hc : core s = ⟨2, f, 100, 400, L, lv, df, c, t⟩) (hf : f ≤ 0)
    (hL0 : 0 ≤ L) (hL1 : L ≤ 1023) (hx0 : 100 ≤ x) (hx1 : x ≤ 1023)
    (hd : L + 30 ≤ x) (hm : x < 400) :
    core (waterSample fp x online s) = ⟨3, f, 100, 400, x, x, x - L, c, t⟩ := by
  have hfake : s.fakeIr = f := congrArg Core.fake hc
  have hlo : s.waterIrMin = 100 := congrArg Core.lo hc
  have hmid : s.waterIrMiddle = 400 := congrArg Core.mid hc
  have hlast : s.waterLastLevel = L := congrArg Core.last hc
  obtain ⟨u, e, hu⟩ := sample_far fp s x online (by omega) (by omega) (by omega)
    (by omega) (by omega) (by rw [hlast, abs_of_nonneg (by omega)]; omega)
  rw [hc, hlast] at hu
  have us : u.waterState = 2 := congrArg Core.state hu
  have ud : u.waterIrDiff = x - L := congrArg Core.diff hu
  have ul : u.waterIrLevel = x := congrArg Core.level hu
  have um : u.waterIrMiddle = 400 := congrArg Core.mid hu
  rw [e]
  unfold waterSwitch
  rw [if_neg (by omega), if_neg (by omega), if_pos us,
    waterCase2_fire u (by omega) (by omega), hu]

theorem phase3_step (fp : Drift) (s : Gateway) (x : Int) (online : Bool)
    (f L lv df c : Int) (t : List Int)
    (hc : core s = ⟨3, f, 100, 400, L, lv, df, c, t⟩) (hf : f ≤ 0)
    (hL0 : 0 ≤ L) (hL1 : L ≤ 1023) (hx0 : 100 ≤ x) (hx1 : x ≤ 1023)
    (hd : L + 30 ≤ x) (hm : 400 < x)
    (hc0 : -2147483648 ≤ c) (hc1 : c < 2147483647) :
    core (waterSample fp x online s) =
      ⟨0, f, fp.raise 100 400, 400, x, x, x - L, c + 1, t ++ [1]⟩ := by
  have hfake : s.fakeIr = f := congrArg Core.fake hc
  have hlo : s.waterIrMin = 100 := congrArg Core.lo hc
  have hmid : s.waterIrMiddle = 400 := congrArg Core.mid hc
  have hlast : s.waterLastLevel = L := congrArg Core.last hc
  obtain ⟨u, e, hu⟩ := sample_far fp s x online (by omega) (by omega) (by omega)
    (by omega) (by omega) (by rw [hlast, abs_of_nonneg (by omega)]; omega)
  rw [hc, hlast] at hu
  have us : u.waterState = 3 := congrArg Core.state hu
  have ud : u.waterIrDiff = x - L := congrArg Core.diff hu
  have ul : u.waterIrLevel = x := congrArg Core.level hu
  have um : u.waterIrMiddle = 400 := congrArg Core.mid hu
  have ulo : u.waterIrMin = 100 := congrArg Core.lo hu
  have uc : u.waterConsumptionCount = c := congrArg Core.count hu
  have ut : tickCalls u.trace = t := congrArg Core.ticks hu
  rw [e]
  unfold waterSwitch
  rw [if_neg (by omega), if_neg (by omega), if_neg (by omega), if_pos us,
    waterCase3_fire fp online u (by omega) (by omega), hu, ulo, um, uc, ut,
    wrap32_of_range _ (by omega) (by omega)]

/-! ## Pulse detector: what any sample step does to the phase and the total -/

theorem readIR_tally (a : Int) (s : Gateway) :
    (readIR a s).2.waterState = s.waterState ∧
    (readIR a s).2.waterConsumptionCount = s.waterConsumptionCount ∧
    (readIR a s).2.trace = s.trace := by
  unfold readIR
  dsimp only
  split_ifs <;> exact ⟨rfl, rfl, rfl⟩

theorem acceptLevel_tally (x : Int) (s : Gateway) :
    (acceptLevel x s).waterState = s.waterState ∧
    (acceptLevel x s).waterConsumptionCount = s.waterConsumptionCount ∧
    (acceptLevel x s).trace = s.trace := by
  unfold acceptLevel
  dsimp only
  split_ifs <;> exact ⟨rfl, rfl, rfl⟩

theorem trackReal_tally (s : Gateway) :
    (trackReal s).waterState = s.waterState ∧
    (trackReal s).waterConsumptionCount = s.waterConsumptionCount ∧
    (trackReal s).trace = s.trace := by
  unfold trackReal
  split_ifs <;> exact ⟨rfl, rfl, rfl⟩

/-- The `switch` keeps the phase or moves it to the next one of the cycle; it calls
`incrementTicks(1)`, once, exactly when it moves from phase 3 to phase 0. -/
theorem waterSwitch_tally (fp : Drift) (online : Bool) (s : Gateway) :
    ((waterSwitch fp online s).waterState = s.waterState ∧
      (waterSwitch fp online s).waterConsumptionCount = s.waterConsumptionCount ∧
      tickCalls (waterSwitch fp online s).trace = tickCalls s.trace) ∨
    (0 ≤ s.waterState ∧ s.waterState ≤ 2 ∧
      (waterSwitch fp online s).waterState = s.waterState + 1 ∧
      (waterSwitch fp online s).waterConsumptionCount = s.waterConsumptionCount ∧
      tickCalls (waterSwitch fp online s).trace = tickCalls s.trace) ∨
    (s.waterState = 3 ∧ (waterSwitch fp online s).waterState = 0 ∧
      (waterSwitch fp online s).waterConsumptionCount
        = wrap32 (s.waterConsumptionCount + 1) ∧
      tickCalls (waterSwitch fp online s).trace = tickCalls s.trace ++ [1]) := by
  unfold waterSwitch
  split_ifs with h0 h1 h2 h3
  · by_cases hc : s.waterIrDiff < 0 ∧ s.waterIrLevel > s.waterIrMiddle
    · right; left
      have e := waterCase0_fire s hc.1 hc.2
      exact ⟨by omega, by omega, by rw [h0]; exact congrArg Core.state e,
        congrArg Core.count e, congrArg Core.ticks e⟩
    · left
      unfold waterCase0 Gateway.emit
      rw [if_neg hc]
      exact ⟨rfl, rfl, by simp [tickCalls_append, tickCalls]⟩
  · by_cases hc : s.waterIrDiff < 0 ∧ s.waterIrLevel < s.waterIrMiddle
    · right; left
      have e := waterCase1_fire fp s hc.1 hc.2
      exact ⟨by omega, by omega, by rw [h1]; exact congrArg Core.state e,
        congrArg Core.count e, congrArg Core.ticks e⟩
    · left
      unfold waterCase1 Gateway.emit
      rw [if_neg hc]
      exact ⟨rfl, rfl, by simp [tickCalls_append, tickCalls]⟩
  · by_cases hc : s.waterIrDiff > 0 ∧ s.waterIrLevel < s.waterIrMiddle
    · right; left
      have e := waterCase2_fire s hc.1 hc.2
      exact ⟨by omega, by omega, by rw [h2]; exact congrArg Core.state e,
        congrArg Core.count e, congrArg Core.ticks e⟩
    · left
      unfold waterCase2 Gateway.emit
      rw [if_neg hc]
      exact ⟨rfl, rfl, by simp [tickCalls_append, tickCalls]⟩
  · by_cases hc : s.waterIrDiff > 0 ∧ s.waterIrLevel > s.waterIrMiddle
    · right; right
      have e := waterCase3_fire fp online s hc.1 hc.2
      exact ⟨h3, congrArg Core.state e, congrArg Core.count e, congrArg Core.ticks e⟩
    · left
      unfold waterCase3 Gateway.emit
      rw [if_neg hc]
      exact ⟨rfl, rfl, by simp [tickCalls_append, tickCalls]⟩
  · left
    exact ⟨rfl, rfl, rfl⟩

/-- One sample step keeps the phase or moves it to the next one of the cycle; it calls
`incrementTicks(1)`, once, exactly when it moves from phase 3 to phase 0. -/
theorem waterSample_tally (fp : Drift) (a : Int) (online : Bool) (s : Gateway) :
    ((waterSample fp a online s).waterState = s.waterState ∧
      (waterSample fp a online s).waterConsumptionCount = s.waterConsumptionCount ∧
      tickCalls (waterSample fp a online s).trace = tickCalls s.trace) ∨
    (0 ≤ s.waterState ∧ s.waterState ≤ 2 ∧
      (waterSample fp a online s).waterState = s.waterState + 1 ∧
      (waterSample fp a online s).waterConsumptionCount = s.waterConsumptionCount ∧
      tickCalls (waterSample fp a online s).trace = tickCalls s.trace) ∨
    (s.waterState = 3 ∧ (waterSample fp a online s).waterState = 0 ∧
      (waterSample fp a online s).waterConsumptionCount
        = wrap32 (s.waterConsumptionCount + 1) ∧
      tickCalls (waterSample fp a online s).trace = tickCalls s.trace ++ [1]) := by
  obtain ⟨r1, r2, r3⟩ := readIR_tally a s
  obtain ⟨a1, a2, a3⟩ := acceptLevel_tally (readIR a s).1 (readIR a s).2
  obtain ⟨t1, t2, t3⟩ := trackReal_tally (acceptLevel (readIR a s).1 (readIR a s).2)
  have h := waterSwitch_tally fp online
    (trackReal (acceptLevel (readIR a s).1 (readIR a s).2))
  rw [t1, t2, t3, a1, a2, a3, r1, r2, r3] at h
  exact h

/-- Started in a phase `k` of 0..3, a run of at most `3 - k` samples stays within the
phases `k..3` and never calls `incrementTicks`. -/
theorem waterRun_no_tick (fp : Drift) (samples : List (Int × Bool)) :
    ∀ (s : Gateway), 0 ≤ s.waterState → s.waterState + samples.length ≤ 3 →
    s.waterState ≤ (waterRun fp samples s).waterState ∧
    (waterRun fp samples s).waterState ≤ s.waterState + samples.length ∧
    (waterRun fp samples s).waterConsumptionCount = s.waterConsumptionCount ∧
    tickCalls (waterRun fp samples s).trace = tickCalls s.trace := by
  induction samples with
  | nil =>
    intro s _ _
    exact ⟨le_refl _, by simp [waterRun], rfl, rfl⟩
  | cons x rest ih =>
    intro s h0 h3
    have hlen : ((x :: rest).length : Int) = (rest.length : Int) + 1 := by
      simp
    have e : waterRun fp (x :: rest) s = waterRun fp rest (waterSample fp x.1 x.2 s) := by
      simp only [waterRun, List.foldl_cons]
    rw [e]
    rcases waterSample_tally fp x.1 x.2 s with ⟨k1, k2, k3⟩ | ⟨_, _, k1, k2, k3⟩ | ⟨k0, _, _, _⟩
    · obtain ⟨i1, i2, i3, i4⟩ := ih (waterSample fp x.1 x.2 s) (by omega) (by omega)
      exact ⟨by omega, by omega, by rw [i3, k2], by rw [i4, k3]⟩
    · obtain ⟨i1, i2, i3, i4⟩ := ih (waterSample fp x.1 x.2 s) (by omega) (by omega)
      exact ⟨by omega, by omega, by rw [i3, k2], by rw [i4, k3]⟩
    · omega

/-! ## C1 -/

set_option maxRecDepth 100000 in
/-- C1, counterexample: from the boot state (phase 0, thresholds 100, 400, 700) the samples
600, 200, 600 rise above the middle, fall below it and rise above it again, yet the
detector stays in phase 0, never calls `incrementTicks` and leaves the total at 0. -/
theorem pulse_rise_fall_rise_no_tick :
    Gateway.boot.waterState = 0 ∧ Gateway.boot.waterIrMiddle = 400 ∧
    (waterRun Drift.exact [(600, true), (200, true), (600, true)] Gateway.boot).waterState = 0 ∧
    tickCalls (waterRun Drift.exact [(600, true), (200, true), (600, true)]
      Gateway.boot).trace = [] ∧
    (waterRun Drift.exact [(600, true), (200, true), (600, true)]
      Gateway.boot).waterConsumptionCount ≠ Gateway.boot.waterConsumptionCount + 1 := by
  decide

/-- C1, amended: in phase 0 with the default thresholds, four accepted samples that fall to
a level still above the middle, fall below the middle, rise to a level still below the
middle and rise above the middle make the detector call `incrementTicks(1)` exactly once,
raise the total by exactly 1 and bring it back to phase 0; no run of fewer than four
samples calls `incrementTicks` or changes the total. -/
theorem pulse_four_phase_tick (fp : Drift) (s : Gateway) (a b c d : Int)
    (oa ob oc od : Bool)
    (hstate : s.waterState = 0) (hfake : s.fakeIr ≤ 0)
    (hmin : s.waterIrMin = 100) (hmid : s.waterIrMiddle = 400)
    (hlast : 0 ≤ s.waterLastLevel ∧ s.waterLastLevel ≤ 1023)
    (hcount : -2147483648 ≤ s.waterConsumptionCount ∧ s.waterConsumptionCount < 2147483647)
    (ha : 100 ≤ a ∧ a ≤ 1023) (hb : 100 ≤ b ∧ b ≤ 1023)
    (hc : 100 ≤ c ∧ c ≤ 1023) (hd : 100 ≤ d ∧ d ≤ 1023)
    (fall1 : a + 30 ≤ s.waterLastLevel ∧ 400 < a) (fall2 : b + 30 ≤ a ∧ b < 400)
    (rise1 : b + 30 ≤ c ∧ c < 400) (rise2 : c + 30 ≤ d ∧ 400 < d) :
    tickCalls (waterRun fp [(a, oa), (b, ob), (c, oc), (d, od)] s).trace
      = tickCalls s.trace ++ [1] ∧
    (waterRun fp [(a, oa), (b, ob), (c, oc), (d, od)] s).waterConsumptionCount
      = s.waterConsumptionCount + 1 ∧
    (waterRun fp [(a, oa), (b, ob), (c, oc), (d, od)] s).waterState = 0 ∧
    (∀ samples : List (Int × Bool), samples.length ≤ 3 →
      tickCalls (waterRun fp samples s).trace = tickCalls s.trace ∧
      (waterRun fp samples s).waterConsumptionCount = s.waterConsumptionCount) := by
  have h0 : core s = ⟨0, s.fakeIr, 100, 400, s.waterLastLevel, s.waterIrLevel, s.waterIrDiff,
      s.waterConsumptionCount, tickCalls s.trace⟩ := by
    unfold core; rw [hstate, hmin, hmid]
  have h1 := phase0_step fp s a oa _ _ _ _ _ _ h0 hfake hlast.1 hlast.2 ha.1 ha.2
    fall1.1 fall1.2
  have h2 := phase1_step fp _ b ob _ _ _ _ _ _ h1 hfake (by omega) ha.2 hb.1 hb.2
    fall2.1 fall2.2
  have h3 := phase2_step fp _ c oc _ _ _ _ _ _ h2 hfake (by omega) hb.2 hc.1 hc.2
    rise1.1 rise1.2
  have h4 := phase3_step fp _ d od _ _ _ _ _ _ h3 hfake (by omega) hc.2 hd.1 hd.2
    rise2.1 rise2.2 hcount.1 hcount.2
  have e : waterRun fp [(a, oa), (b, ob), (c, oc), (d, od)] s =
      waterSample fp d od (waterSample fp c oc (waterSample fp b ob (waterSample fp a oa s))) := by
    simp only [waterRun, List.foldl_cons, List.foldl_nil]
  rw [e]
  refine ⟨congrArg Core.ticks h4, congrArg Core.count h4, congrArg Core.state h4, ?_⟩
  intro samples hlen
  obtain ⟨_, _, n3, n4⟩ := waterRun_no_tick fp samples s (by omega) (by omega)
  exact ⟨n4, n3⟩

set_option maxRecDepth 100000 in
/-- C1, amended, at an input: after a first sample of 600 the samples 500, 200, 300, 600
complete one cycle. -/
theorem pulse_four_phase_tick_witness :
    tickCalls (waterRun Drift.exact [(500, true), (200, false), (300, true), (600, true)]
      (waterSample Drift.exact 600 true Gateway.boot)).trace
      = tickCalls (waterSample Drift.exact 600 true Gateway.boot).trace ++ [1] ∧
    (waterRun Drift.exact [(500, true), (200, false), (300, true), (600, true)]
      (waterSample Drift.exact 600 true Gateway.boot)).waterConsumptionCount
      = (waterSample Drift.exact 600 true Gateway.boot).waterConsumptionCount + 1 ∧
    (waterRun Drift.exact [(500, true), (200, false), (300, true), (600, true)]
      (waterSample Drift.exact 600 true Gateway.boot)).waterState = 0 ∧
    (∀ samples : List (Int × Bool), samples.length ≤ 3 →
      tickCalls (waterRun Drift.exact samples
        (waterSample Drift.exact 600 true Gateway.boot)).trace
        = tickCalls (waterSample Drift.exact 600 true Gateway.boot).trace ∧
      (waterRun Drift.exact samples
        (waterSample Drift.exact 600 true Gateway.boot)).waterConsumptionCount
        = (waterSample Drift.exact 600 true Gateway.boot).waterConsumptionCount) :=
  pulse_four_phase_tick Drift.exact (waterSample Drift.exact 600 true Gateway.boot)
    500 200 300 600 true false true true (by decide) (by decide) (by decide) (by decide)
    (by decide) (by decide) (by decide) (by decide) (by decide) (by decide) (by decide)
    (by decide) (by decide) (by decide)

/-! ## Bus access guard: the wait and one waiting call -/

theorem toLong_delay (m : Nat) (h : toLong m + 20 < 2147483648) :
    toLong ((m + 20) % 4294967296) = toLong m + 20 := by
  unfold toLong wrap32 at *
  push_cast
  omega

theorem coolWait_ends (n : Nat) : ∀ s : Gateway, s.modbusCooldown ≤ 2147483627 →
    s.modbusCooldown - toLong s.millis ≤ 20 * (n : Int) →
    ∃ m, coolWait (n + 1) s = some { s with millis := m } ∧
      ¬ (toLong m < s.modbusCooldown) := by
  induction n with
  | zero =>
    intro s _ hgap
    refine ⟨s.millis, ?_, by omega⟩
    unfold coolWait
    rw [if_neg (by omega)]
  | succ k ih =>
    intro s hcd hgap
    by_cases hw : toLong s.millis < s.modbusCooldown
    · have hstep : toLong (delay 20 s).millis = toLong s.millis + 20 :=
        toLong_delay s.millis (by omega)
      obtain ⟨m, e, hm⟩ := ih (delay 20 s) hcd (by
        rw [hstep]
        have : (delay 20 s).modbusCooldown = s.modbusCooldown := rfl
        rw [this]; push_cast at hgap; omega)
      refine ⟨m, ?_, hm⟩
      rw [coolWait, if_pos hw, e]
      rfl
    · refine ⟨s.millis, ?_, hw⟩
      rw [coolWait, if_neg hw]

theorem toLong_bounds (m : Nat) : -2147483648 ≤ toLong m ∧ toLong m < 2147483648 := by
  unfold toLong wrap32
  omega

/-- A call that has to wait, with at most 50 hits counted: it returns, counts one more hit,
signals nothing, and leaves the deadline `coolDownTimeMS` after the clock. -/
theorem modbusCool_wait (d : Int) (s : Gateway) (hw : mustWait s = true)
    (hcd : s.modbusCooldown ≤ 2147483627) (h0 : 0 ≤ s.modbusCooldownHit)
    (h50 : s.modbusCooldownHit ≤ 50) :
    ∃ t, modbusCool d s = some t ∧ t.modbusCooldownHit = s.modbusCooldownHit + 1 ∧
      t.rebooted = s.rebooted ∧ t.trace = s.trace ∧
      ¬ (toLong t.millis < s.modbusCooldown) ∧
      t.modbusCooldown = wrap32 (t.millis + d) := by
  have hw2 : toLong s.millis < s.modbusCooldown := by simpa [mustWait] using hw
  have hb := toLong_bounds s.millis
  obtain ⟨m, e, hm⟩ := coolWait_ends 1073741824
    { s with modbusCooldownHit := wrap32 (s.modbusCooldownHit + 1) } hcd (by
      show s.modbusCooldown - toLong s.millis ≤ _
      push_cast; omega)
  have hf : coolFuel = 1073741824 + 1 := rfl
  refine ⟨{ s with modbusCooldownHit := wrap32 (s.modbusCooldownHit + 1), millis := m,
                   modbusCooldown := wrap32 (m + d) }, ?_,
    wrap32_of_range _ (by omega) (by omega), rfl, rfl, hm, rfl⟩
  unfold modbusCool
  rw [if_pos hw2, if_neg (by omega)]
  simp only [hf]
  rw [e]
  rfl

/-- A call that has to wait with more than 50 hits counted: it publishes the error and
resets the device. -/
theorem modbusCool_fatal (d : Int) (s : Gateway) (hw : mustWait s = true)
    (h50 : 50 < s.modbusCooldownHit) :
    ∃ t, modbusCool d s = some t ∧ t.rebooted = true ∧
      t.trace = s.trace ++ [Event.publish "ventilation/error/modbusCooldown" "1" false,
        Event.reset] := by
  have hw2 : toLong s.millis < s.modbusCooldown := by simpa [mustWait] using hw
  refine ⟨{ s with
      trace := s.trace ++ [Event.publish "ventilation/error/modbusCooldown" "1" false,
        Event.reset],
      rebooted := true }, ?_, rfl, rfl⟩
  unfold modbusCool
  rw [if_pos hw2, if_pos (by omega)]
  simp [Gateway.emit]

theorem coolCalls_append (a b : List (Nat × Int)) : ∀ (s t : Gateway),
    coolCalls a s = some t → t.rebooted = false → coolCalls (a ++ b) s = coolCalls b t := by
  induction a with
  | nil =>
    intro s t h _
    simp only [coolCalls, Option.some.injEq] at h
    rw [List.nil_append, h]
  | cons c rest ih =>
    intro s t h hr
    rw [List.cons_append]
    simp only [coolCalls] at h ⊢
    cases hc : modbusCool c.2 (elapse c.1 s) with
    | none => rw [hc] at h; simp at h
    | some u =>
      rw [hc] at h
      simp only at h ⊢
      by_cases hu : u.rebooted = true
      · rw [if_pos hu] at h
        simp only [Option.some.injEq] at h
        rw [h] at hu; rw [hr] at hu; exact absurd hu (by decide)
      · rw [if_neg hu] at h
        rw [if_neg hu]
        exact ih u t h hr

/-- Waiting calls counted from `h` hits: as long as the count stays at or below 51 they
all return, signal nothing and count one hit each. -/
theorem coolCalls_waiting (k : Nat) : ∀ (calls : List (Nat × Int)) (s : Gateway) (h : Nat),
    s.modbusCooldownHit = h → s.rebooted = false → allWaiting calls s = true →
    k ≤ calls.length → h + k ≤ 51 →
    ∃ t, coolCalls (calls.take k) s = some t ∧ t.rebooted = false ∧
      t.modbusCooldownHit = ((h + k : Nat) : Int) ∧ t.trace = s.trace ∧
      allWaiting (calls.drop k) t = true := by
  induction k with
  | zero =>
    intro calls s h hh hr hw _ _
    exact ⟨s, rfl, hr, by simpa using hh, rfl, by simpa using hw⟩
  | succ j ih =>
    intro calls s h hh hr hw hlen hsum
    cases calls with
    | nil => simp at hlen
    | cons c rest =>
      rw [allWaiting, Bool.and_eq_true, Bool.and_eq_true, decide_eq_true_eq] at hw
      obtain ⟨⟨hw1, hw2⟩, hw3⟩ := hw
      have hh2 : (elapse c.1 s).modbusCooldownHit = (h : Int) := hh
      have hr2 : (elapse c.1 s).rebooted = false := hr
      have ht2 : (elapse c.1 s).trace = s.trace := rfl
      obtain ⟨u, e, uh, ur, ut, _, _⟩ :=
        modbusCool_wait c.2 (elapse c.1 s) hw1 hw2 (by omega) (by omega)
      rw [e] at hw3
      simp only at hw3
      obtain ⟨t, e2, r2, c2, t2, w2⟩ := ih rest u (h + 1) (by rw [uh, hh2]; push_cast; rfl)
        (by rw [ur, hr2]) hw3 (by simpa using hlen) (by omega)
      refine ⟨t, ?_, r2, ?_, ?_, ?_⟩
      · rw [List.take_succ_cons, coolCalls, e]
        simp only
        rw [if_neg (by rw [ur, hr2]; decide)]
        exact e2
      · rw [c2]; push_cast; omega
      · rw [t2, ut, ht2]
      · simpa using w2

/-! ## C2 -/

/-- C2: from a hit count of 0, in every run of 52 consecutive calls of `modbusCool` that
each find the clock before the stored deadline (a deadline at least 20 ms below the largest
`long`, so that the wait ends), the first 51 calls return without signalling (nothing is
published, no reset, the hit count equals the number of calls made) and the 52nd call
publishes `error/modbusCooldown` and resets the device. -/
theorem modbusCool_fatal_on_52nd_wait (s : Gateway) (calls : List (Nat × Int))
    (hhit : s.modbusCooldownHit = 0) (hr : s.rebooted = false)
    (hlen : calls.length = 52) (hw : allWaiting calls s = true) :
    (∀ k, k ≤ 51 → ∃ t, coolCalls (calls.take k) s = some t ∧ t.rebooted = false ∧
        t.modbusCooldownHit = (k : Int) ∧ t.trace = s.trace) ∧
    (∃ t, coolCalls calls s = some t ∧ t.rebooted = true ∧
        t.trace = s.trace ++
          [Event.publish "ventilation/error/modbusCooldown" "1" false, Event.reset]) := by
  constructor
  · intro k hk
    obtain ⟨t, e, r, c, tr, _⟩ := coolCalls_waiting k calls s 0 (by simpa using hhit) hr hw
      (by omega) (by omega)
    exact ⟨t, e, r, by simpa using c, tr⟩
  · obtain ⟨t, e, r, c, tr, w⟩ := coolCalls_waiting 51 calls s 0 (by simpa using hhit) hr hw
      (by omega) (by omega)
    have hsplit : calls = calls.take 51 ++ calls.drop 51 := (List.take_append_drop 51 calls).symm
    have hlast : (calls.drop 51).length = 1 := by rw [List.length_drop, hlen]
    obtain ⟨x, hx⟩ := List.length_eq_one.mp hlast
    rw [hx] at hsplit w
    rw [allWaiting, Bool.and_eq_true, Bool.and_eq_true] at w
    obtain ⟨u, hu, ur, ut⟩ := modbusCool_fatal x.2 (elapse x.1 t) w.1.1 (by
      show 50 < t.modbusCooldownHit
      rw [c]; decide)
    refine ⟨u, ?_, ur, ?_⟩
    · rw [hsplit, coolCalls_append _ _ s t e r, coolCalls, hu]
      simp only [ur, if_true]
    · rw [ut, ← tr]
      rfl

set_option maxRecDepth 1000000 in
/-- C2 at an input: the deadline lies 200 ms ahead and 52 calls `modbusCool(200)` follow
each other without any time passing in between. -/
theorem modbusCool_fatal_on_52nd_wait_witness :
    allWaiting (List.replicate 52 (0, 200)) { Gateway.boot with modbusCooldown := 200 } = true ∧
    (∀ k, k ≤ 51 → ∃ t, coolCalls ((List.replicate 52 (0, 200)).take k)
        { Gateway.boot with modbusCooldown := 200 } = some t ∧ t.rebooted = false ∧
        t.modbusCooldownHit = (k : Int) ∧
        t.trace = ({ Gateway.boot with modbusCooldown := 200 } : Gateway).trace) ∧
    (∃ t, coolCalls (List.replicate 52 (0, 200))
        { Gateway.boot with modbusCooldown := 200 } = some t ∧ t.rebooted = true ∧
        t.trace = ({ Gateway.boot with modbusCooldown := 200 } : Gateway).trace ++
          [Event.publish "ventilation/error/modbusCooldown" "1" false, Event.reset]) :=
  ⟨by decide, modbusCool_fatal_on_52nd_wait { Gateway.boot with modbusCooldown := 200 }
    (List.replicate 52 (0, 200)) rfl rfl rfl (by decide)⟩

/-! ## Connection supervisors: state reached by one step -/

theorem incrementTicks_mqttConnectState (online : Bool) (c : Int) (s : Gateway) :
    (incrementTicks online c s).mqttConnectState = s.mqttConnectState := by
  unfold incrementTicks Gateway.emit
  dsimp only
  split_ifs <;> rfl

theorem wifiHandle_mqttConnectState (env : Link) (s : Gateway) :
    (wifiHandle env s).mqttConnectState = s.mqttConnectState := by
  cases hs : s.wifiConnectState <;> simp only [wifiHandle, hs, Gateway.emit, delay] <;>
    split_ifs <;> rfl

theorem wifiHandle_start (env : Link) (s : Gateway)
    (h : s.wifiConnectState = ConnectState.CONNECT_START) :
    (wifiHandle env s).wifiConnectState = ConnectState.CONNECT_WAIT := by
  unfold wifiHandle
  rw [h]

theorem wifiHandle_success_from (env : Link) (s : Gateway)
    (h : (wifiHandle env s).wifiConnectState = ConnectState.CONNECT_SUCCESS) :
    s.wifiConnectState = ConnectState.CONNECT_WAIT ∨
      s.wifiConnectState = ConnectState.CONNECT_SUCCESS := by
  cases hs : s.wifiConnectState with
  | CONNECT_START => rw [wifiHandle_start env s hs] at h; exact absurd h (by decide)
  | CONNECT_WAIT => exact Or.inl rfl
  | CONNECT_SUCCESS => exact Or.inr rfl
  | CONNECT_FAILURE =>
    have e : (wifiHandle env s).wifiConnectState = ConnectState.CONNECT_FAILURE := by
      simp only [wifiHandle, hs, Gateway.emit, delay]
    rw [e] at h; exact absurd h (by decide)

theorem mqttWaitCase_state (s : Gateway) :
    (mqttWaitCase s).mqttConnectState =
      if s.millis > s.mqttConnectNext then ConnectState.CONNECT_START
      else s.mqttConnectState := by
  unfold mqttWaitCase
  split_ifs <;> rfl

theorem mqttStartCase_connected (env : Link) (s : Gateway) (h : env.mqttConnect = true) :
    (mqttStartCase env s).mqttConnectState = ConnectState.CONNECT_SUCCESS := by
  unfold mqttStartCase
  rw [if_pos h]

theorem mqttStartCase_failed (env : Link) (s : Gateway) (h : env.mqttConnect = false) :
    (mqttStartCase env s).mqttConnectState =
      if wrap32 (s.numberRetries + 1) > 50 then ConnectState.CONNECT_FAILURE
      else if env.wifiUp = false then s.mqttConnectState
      else ConnectState.CONNECT_WAIT := by
  unfold mqttStartCase
  rw [if_neg (by rw [h]; decide)]
  dsimp only
  split_ifs
  · rfl
  · rw [wifiHandle_mqttConnectState]
  · rfl

theorem mqttReconnect_start (env : Link) (s : Gateway)
    (h : s.mqttConnectState = ConnectState.CONNECT_START) :
    mqttReconnect env s = mqttStartCase env s := by
  unfold mqttReconnect
  rw [h]

theorem mqttReconnect_wait (env : Link) (s : Gateway)
    (h : s.mqttConnectState = ConnectState.CONNECT_WAIT) :
    mqttReconnect env s = mqttWaitCase s := by
  unfold mqttReconnect
  rw [h]

theorem mqttReconnect_success_from (env : Link) (s : Gateway)
    (h : (mqttReconnect env s).mqttConnectState = ConnectState.CONNECT_SUCCESS) :
    s.mqttConnectState = ConnectState.CONNECT_START ∨
      s.mqttConnectState = ConnectState.CONNECT_SUCCESS := by
  cases hs : s.mqttConnectState with
  | CONNECT_START => exact Or.inl rfl
  | CONNECT_SUCCESS => exact Or.inr rfl
  | CONNECT_WAIT =>
    rw [mqttReconnect_wait env s hs, mqttWaitCase_state, hs] at h
    split_ifs at h
  | CONNECT_FAILURE =>
    have e : (mqttReconnect env s).mqttConnectState = ConnectState.CONNECT_FAILURE := by
      simp only [mqttReconnect, hs, Gateway.emit, delay]
    rw [e] at h; exact absurd h (by decide)

/-! ## C3 -/

/-- C3, counterexample: `mqttReconnect` called in state `CONNECT_START` with a connect that
succeeds leaves the state at `CONNECT_SUCCESS`: one step, and `CONNECT_WAIT` is skipped. -/
theorem mqttReconnect_start_skips_wait :
    Gateway.boot.mqttConnectState = ConnectState.CONNECT_START ∧
    (mqttReconnect { wifiUp := true, wifiWait := true, mqttUp := true, mqttConnect := true }
      Gateway.boot).mqttConnectState = ConnectState.CONNECT_SUCCESS := by
  decide

/-- C3, amended: `wifiHandle` takes `CONNECT_START` to `CONNECT_WAIT` in every step and
enters `CONNECT_SUCCESS` from `CONNECT_WAIT` only; `mqttReconnect` takes `CONNECT_START`
straight to `CONNECT_SUCCESS` when the connect succeeds, never reaches `CONNECT_SUCCESS`
from `CONNECT_START` when it fails, and never enters `CONNECT_SUCCESS` from
`CONNECT_WAIT`. -/
theorem supervisors_reach_success (env : Link) (s : Gateway) :
    (s.wifiConnectState = ConnectState.CONNECT_START →
      (wifiHandle env s).wifiConnectState = ConnectState.CONNECT_WAIT) ∧
    ((wifiHandle env s).wifiConnectState = ConnectState.CONNECT_SUCCESS →
      s.wifiConnectState = ConnectState.CONNECT_WAIT ∨
      s.wifiConnectState = ConnectState.CONNECT_SUCCESS) ∧
    (s.mqttConnectState = ConnectState.CONNECT_START → env.mqttConnect = true →
      (mqttReconnect env s).mqttConnectState = ConnectState.CONNECT_SUCCESS) ∧
    (s.mqttConnectState = ConnectState.CONNECT_START → env.mqttConnect = false →
      (mqttReconnect env s).mqttConnectState ≠ ConnectState.CONNECT_SUCCESS) ∧
    ((mqttReconnect env s).mqttConnectState = ConnectState.CONNECT_SUCCESS →
      s.mqttConnectState = ConnectState.CONNECT_START ∨
      s.mqttConnectState = ConnectState.CONNECT_SUCCESS) := by
  refine ⟨wifiHandle_start env s, wifiHandle_success_from env s, ?_, ?_,
    mqttReconnect_success_from env s⟩
  · intro hs hc
    rw [mqttReconnect_start env s hs, mqttStartCase_connected env s hc]
  · intro hs hc
    rw [mqttReconnect_start env s hs, mqttStartCase_failed env s hc, hs]
    split_ifs <;> decide

/-- C3, amended, at an input: the boot state with every platform call succeeding. -/
theorem supervisors_reach_success_witness :
    (wifiHandle { wifiUp := true, wifiWait := true, mqttUp := true, mqttConnect := true }
      Gateway.boot).wifiConnectState = ConnectState.CONNECT_WAIT ∧
    (mqttReconnect { wifiUp := true, wifiWait := true, mqttUp := true, mqttConnect := true }
      Gateway.boot).mqttConnectState = ConnectState.CONNECT_SUCCESS :=
  ⟨(supervisors_reach_success
      { wifiUp := true, wifiWait := true, mqttUp := true, mqttConnect := true }
      Gateway.boot).1 rfl,
   (supervisors_reach_success
      { wifiUp := true, wifiWait := true, mqttUp := true, mqttConnect := true }
      Gateway.boot).2.2.1 rfl rfl⟩

/-! ## Session supervisor: the retry count between calls -/

theorem incrementTicks_numberRetries (online : Bool) (c : Int) (s : Gateway) :
    (incrementTicks online c s).numberRetries = s.numberRetries := by
  unfold incrementTicks Gateway.emit
  dsimp only
  split_ifs <;> rfl

theorem alarmString_id (i : Nat) (hi : i = 1 ∨ i = 4 ∨ i = 7) (w : Int) :
    alarmString i w = alarmIdString w := by
  unfold alarmString
  rw [if_pos hi]

theorem alarmString_date (i : Nat) (hi : i = 2 ∨ i = 5 ∨ i = 8) (w : Int) :
    alarmString i w = some (alarmDateString w) := by
  unfold alarmString
  rw [if_neg (by omega), if_pos hi]

theorem alarmString_time (i : Nat) (hi : i = 3 ∨ i = 6 ∨ i = 9) (w : Int) :
    alarmString i w = some (alarmTimeString w) := by
  unfold alarmString
  rw [if_neg (by omega), if_neg (by omega), if_pos hi]

set_option maxRecDepth 1000000 in
/-- Every non-zero entry of `ventAlarmListNumber` is rendered as the text at its position. -/
theorem alarmScan_table : ∀ p : Fin 64, ventAlarmListNumber[p.val]? ≠ some 0 →
    (ventAlarmListNumber[p.val]?).bind alarmIdString = ventAlarmListText[p.val]? := by
  decide

theorem shiftRight_and (a b i : Nat) : (a &&& b) >>> i = (a >>> i) &&& (b >>> i) :=
  Nat.eq_of_testBit_eq (fun j => by simp [Nat.testBit_shiftRight, Nat.testBit_and])

theorem and_7E0 (n : Nat) : (n &&& 0x7E0) >>> 5 = n / 32 % 64 := by
  rw [shiftRight_and, Nat.shiftRight_eq_div_pow]
  exact Nat.and_pow_two_sub_one_eq_mod (n / 2 ^ 5) 6

theorem and_1E0 (n : Nat) : (n &&& 0x1E0) >>> 5 = n / 32 % 16 := by
  rw [shiftRight_and, Nat.shiftRight_eq_div_pow]
  exact Nat.and_pow_two_sub_one_eq_mod (n / 2 ^ 5) 4

theorem and_1F (n : Nat) : n &&& 0x1F = n % 32 :=
  Nat.and_pow_two_sub_one_eq_mod n 5

/-- The mask `0x11F` keeps bit 8 next to the five low bits: it yields the low five bits
only when bit 8 of the word is clear. -/
theorem and_11F (n : Nat) (h : n / 256 % 2 = 0) : n &&& 0x11F = n % 32 := by
  have e : (0x11F : Nat) = 2 ^ 8 ||| (2 ^ 5 - 1) := by decide
  rw [e, Nat.and_or_distrib_left, Nat.and_pow_two_sub_one_eq_mod]
  have z : n &&& 2 ^ 8 = 0 := by
    apply Nat.eq_of_testBit_eq
    intro j
    rw [Nat.testBit_and, Nat.testBit_two_pow, Nat.zero_testBit]
    by_cases hj : 8 = j
    · subst hj
      have : n.testBit 8 = false := by
        rw [Nat.testBit_to_div_mod]; simp [h]
      simp [this]
    · simp [hj]
  rw [z, Nat.zero_or]

theorem yearString (y : Nat) (h : y < 64) : toString ((y : Int) + 1980) =
    String.mk [digitChar ((1980 + y) / 1000), digitChar ((1980 + y) / 100),
      digitChar ((1980 + y) / 10), digitChar (1980 + y)] := by
  interval_cases y <;> rfl

theorem fmt02d_two (k : Nat) (h : k < 100) :
    fmt02d (k : Int) = String.mk [digitChar (k / 10), digitChar k] := by
  interval_cases k <;> rfl

theorem wrap16_small (n : Nat) (h : n < 32768) : wrap16 (n : Int) = (n : Int) := by
  unfold wrap16; omega

theorem wrap16_high (n : Nat) (h1 : 32768 ≤ n) (h2 : n < 65536) : wrap16 (n : Int) < 0 := by
  unfold wrap16; omega

/-- The date rendering of a positive word, field by field. -/
theorem alarmDateString_pos (n : Nat) (h : 0 < n) :
    alarmDateString (n : Int) =
      toString (((n / 512 : Nat) : Int) + 1980) ++ ("-" ++ fmt02d ((n / 32 % 16 : Nat) : Int)) ++
        ("-" ++ fmt02d ((n % 32 : Nat) : Int)) := by
  unfold alarmDateString
  rw [if_pos (by omega)]
  have h1 : (n : Int) >>> 9 = ((n / 512 : Nat) : Int) := by
    show ((n >>> 9 : Nat) : Int) = _
    rw [Nat.shiftRight_eq_div_pow]
  have h2 : (Int.land (n : Int) 0x1E0) >>> 5 = ((n / 32 % 16 : Nat) : Int) := by
    show (((n &&& 0x1E0) >>> 5 : Nat) : Int) = _
    rw [and_1E0]
  have h3 : Int.land (n : Int) 0x1F = ((n % 32 : Nat) : Int) := by
    show ((n &&& 0x1F : Nat) : Int) = _
    rw [and_1F]
  rw [h1, h2, h3]

/-- The time rendering of a positive word, field by field. -/
theorem alarmTimeString_pos (n : Nat) (h : 0 < n) :
    alarmTimeString (n : Int) =
      fmt02d ((n / 2048 : Nat) : Int) ++ (":" ++ fmt02d ((n / 32 % 64 : Nat) : Int)) ++
        (":" ++ fmt02d (((n &&& 0x11F) * 2 : Nat) : Int)) := by
  unfold alarmTimeString
  rw [if_pos (by omega)]
  have h1 : (n : Int) >>> 11 = ((n / 2048 : Nat) : Int) := by
    show ((n >>> 11 : Nat) : Int) = _
    rw [Nat.shiftRight_eq_div_pow]
  have h2 : (Int.land (n : Int) 0x7E0) >>> 5 = ((n / 32 % 64 : Nat) : Int) := by
    show (((n &&& 0x7E0) >>> 5 : Nat) : Int) = _
    rw [and_7E0]
  have h3 : Int.land (n : Int) 0x11F * 2 = (((n &&& 0x11F) * 2 : Nat) : Int) := by
    show ((n &&& 0x11F : Nat) : Int) * 2 = _
    push_cast; rfl
  rw [h1, h2, h3]

/-! ## C5 -/

/-- C5, counterexample: the negative word -1 at an alarm id position is rendered "None",
not "UNKNOWN". -/
theorem alarm_id_negative_is_none :
    alarmString 1 (-1) = some "None" ∧ alarmString 4 (-1) = some "None" ∧
    alarmString 7 (-1) = some "None" ∧ alarmString 1 (-1) ≠ some "UNKNOWN" := by
  decide

/-- C5, amended: at the alarm id positions 1, 4 and 7 every word that is zero or negative
is rendered "None", and every non-zero word equal to an entry of `ventAlarmListNumber` is
rendered as the entry of `ventAlarmListText` at the same position; 3 is rendered "FIRE". -/
theorem alarm_id_render (i : Nat) (hi : i = 1 ∨ i = 4 ∨ i = 7) (w : Int) :
    (w ≤ 0 → alarmString i w = some "None") ∧
    (∀ p : Nat, ventAlarmListNumber[p]? = some w → w ≠ 0 →
      ∃ t, ventAlarmListText[p]? = some t ∧ alarmString i w = some t) ∧
    alarmString i 3 = some "FIRE" := by
  rw [alarmString_id i hi, alarmString_id i hi]
  refine ⟨?_, ?_, by decide⟩
  · intro hw
    unfold alarmIdString
    rw [if_neg (by omega)]
  · intro p hp hw
    have hlt : p < 64 := by
      by_contra hge
      have : ventAlarmListNumber[p]? = none :=
        List.getElem?_eq_none (by
          have : ventAlarmListNumber.length = 64 := by decide
          omega)
      rw [this] at hp
      exact absurd hp (by simp)
    have ht := alarmScan_table ⟨p, hlt⟩ (by
      show ventAlarmListNumber[p]? ≠ some 0
      rw [hp]; intro h; exact hw (Option.some.inj h))
    simp only [hp, Option.some_bind] at ht
    have hlen : p < ventAlarmListText.length := by
      have : ventAlarmListText.length = 65 := by decide
      omega
    exact ⟨ventAlarmListText[p], List.getElem?_eq_getElem hlen,
      by rw [ht, List.getElem?_eq_getElem hlen]⟩

set_option maxRecDepth 1000000 in
/-- C5, amended, at inputs: word -7 at position 4, and word 71, the entry at position 60,
at position 7. -/
theorem alarm_id_render_witness :
    alarmString 4 (-7) = some "None" ∧
    (∃ t, ventAlarmListText[60]? = some t ∧ alarmString 7 71 = some t) :=
  ⟨(alarm_id_render 4 (by decide) (-7)).1 (by decide),
   (alarm_id_render 7 (by decide) 71).2.1 60 (by decide) (by decide)⟩

/-! ## C6 -/

/-- C6, counterexample: year offset 64, month 1, day 1 gives the word 0x8021, which is
negative as an `int16_t`; the date position renders "N/A", not "2044-01-01". -/
theorem alarm_date_year_64_is_na :
    alarmString 2 (wrap16 (64 * 512 + 1 * 32 + 1)) = some "N/A" ∧
    alarmString 2 (wrap16 (64 * 512 + 1 * 32 + 1)) ≠ some (isoDate (1980 + 64) 1 1) := by
  decide

/-- C6, amended: for every year offset `y` in 0..63, month `m` in 1..12 and day `d` in 1..31
the word `y*512 + m*32 + d` at an alarm date position (2, 5, 8) is rendered as the
zero-padded text of year `1980 + y`, month `m`, day `d`; for `y` in 64..127 the word is
negative as an `int16_t` and is rendered "N/A". -/
theorem alarm_date_render (i : Nat) (hi : i = 2 ∨ i = 5 ∨ i = 8) (y m d : Nat)
    (hm : 1 ≤ m ∧ m ≤ 12) (hd : 1 ≤ d ∧ d ≤ 31) :
    (y < 64 →
      alarmString i (wrap16 ((y * 512 + m * 32 + d : Nat) : Int))
        = some (isoDate (1980 + y) m d)) ∧
    (64 ≤ y → y < 128 →
      alarmString i (wrap16 ((y * 512 + m * 32 + d : Nat) : Int)) = some "N/A") := by
  rw [alarmString_date i hi]
  constructor
  · intro hy
    rw [wrap16_small _ (by omega), alarmDateString_pos _ (by omega)]
    have e1 : (y * 512 + m * 32 + d) / 512 = y := by omega
    have e2 : (y * 512 + m * 32 + d) / 32 % 16 = m := by omega
    have e3 : (y * 512 + m * 32 + d) % 32 = d := by omega
    rw [e1, e2, e3, yearString y hy, fmt02d_two m (by omega), fmt02d_two d (by omega)]
    rfl
  · intro hy1 hy2
    have hneg := wrap16_high (y * 512 + m * 32 + d) (by omega) (by omega)
    unfold alarmDateString
    rw [if_neg (by omega)]

/-- C6, amended, at inputs: (44, 3, 15) is rendered "2024-03-15" and (100, 12, 31) is
rendered "N/A". -/
theorem alarm_date_render_witness :
    alarmString 2 (wrap16 ((44 * 512 + 3 * 32 + 15 : Nat) : Int)) = some (isoDate (1980 + 44) 3 15) ∧
    isoDate (1980 + 44) 3 15 = "2024-03-15" ∧
    alarmString 8 (wrap16 ((100 * 512 + 12 * 32 + 31 : Nat) : Int)) = some "N/A" :=
  ⟨(alarm_date_render 2 (by decide) 44 3 15 (by decide) (by decide)).1 (by decide),
   by decide,
   (alarm_date_render 8 (by decide) 100 12 31 (by decide) (by decide)).2 (by decide)
     (by decide)⟩

/-! ## C7 -/

/-- C7, counterexample: hour 0, minute 8, count 0 gives the word 256, which the time
position renders "00:08:512" because the mask `0x11F` keeps bit 8 of the word with the
seconds; hour 16, minute 0, count 0 gives the word 0x8000, which is negative as an
`int16_t` and is rendered "N/A". -/
theorem alarm_time_wrong_seconds :
    alarmString 3 (wrap16 (0 * 2048 + 8 * 32 + 0)) = some "00:08:512" ∧
    alarmString 3 (wrap16 (0 * 2048 + 8 * 32 + 0)) ≠ some (clockTime 0 8 (2 * 0)) ∧
    alarmString 3 (wrap16 (16 * 2048 + 0 * 32 + 0)) = some "N/A" ∧
    alarmString 3 (wrap16 (16 * 2048 + 0 * 32 + 0)) ≠ some (clockTime 16 0 (2 * 0)) := by
  decide

/-- C7, amended: for every hour `h` in 0..15, every minute `m` in 0..59 whose bit 3 is
clear (`m % 16 < 8`) and every two-second count `s` in 0..29 with a non-zero packed word,
the word `h*2048 + m*32 + s` at an alarm time position (3, 6, 9) is rendered as the
zero-padded text of hour `h`, minute `m`, second `2*s`; for `h` in 16..23 the word is
negative as an `int16_t` and is rendered "N/A". -/
theorem alarm_time_render (i : Nat) (hi : i = 3 ∨ i = 6 ∨ i = 9) (h m s : Nat)
    (hm : m ≤ 59) (hs : s ≤ 29) (hne : h * 2048 + m * 32 + s ≠ 0) :
    (h < 16 → m % 16 < 8 →
      alarmString i (wrap16 ((h * 2048 + m * 32 + s : Nat) : Int))
        = some (clockTime h m (2 * s))) ∧
    (16 ≤ h → h ≤ 23 →
      alarmString i (wrap16 ((h * 2048 + m * 32 + s : Nat) : Int)) = some "N/A") := by
  rw [alarmString_time i hi]
  constructor
  · intro hh hbit
    rw [wrap16_small _ (by omega), alarmTimeString_pos _ (by omega)]
    have e1 : (h * 2048 + m * 32 + s) / 2048 = h := by omega
    have e2 : (h * 2048 + m * 32 + s) / 32 % 64 = m := by omega
    have e3 : (h * 2048 + m * 32 + s) &&& 0x11F = s := by
      rw [and_11F _ (by omega)]; omega
    have e4 : s * 2 = 2 * s := by omega
    rw [e1, e2, e3, e4, fmt02d_two h (by omega), fmt02d_two m (by omega),
      fmt02d_two (2 * s) (by omega)]
    rfl
  · intro hh1 hh2
    have hneg := wrap16_high (h * 2048 + m * 32 + s) (by omega) (by omega)
    unfold alarmTimeString
    rw [if_neg (by omega)]

/-- C7, amended, at inputs: 13:07:58 is rendered as such and 23:59:58 is rendered "N/A". -/
theorem alarm_time_render_witness :
    alarmString 6 (wrap16 ((13 * 2048 + 7 * 32 + 29 : Nat) : Int)) = some (clockTime 13 7 (2 * 29)) ∧
    clockTime 13 7 (2 * 29) = "13:07:58" ∧
    alarmString 9 (wrap16 ((23 * 2048 + 59 * 32 + 29 : Nat) : Int)) = some "N/A" :=
  ⟨(alarm_time_render 6 (by decide) 13 7 29 (by decide) (by decide) (by decide)).1
     (by decide) (by decide),
   by decide,
   (alarm_time_render 9 (by decide) 23 59 29 (by decide) (by decide) (by decide)).2
     (by decide) (by decide)⟩

/-! ## Read decode of `HandleRequest` -/

/-- An entry made by the decode loop is one of the assignments of the read operation. -/
theorem readFields_mem (r type nums i : Nat) (ws : List Int) (e : String × JsonValue)
    (ht : ventRegistrationTypes[r]? = some type) (hn : ventRegistrationSizes[r]? = some nums)
    (hi : i < nums) (he : readEntry r type i ws = some e) :
    ∃ fields, readFields r ws = some fields ∧ e ∈ fields := by
  refine ⟨(List.range nums).filterMap (fun i => readEntry r type i ws), ?_, ?_⟩
  · unfold readFields
    rw [ht, hn]
  · exact List.mem_filterMap.mpr ⟨i, List.mem_range.mpr hi, he⟩

theorem readEntry_named (r type i : Nat) (ws : List Int) (name : String)
    (hname : getName r i = some name) (hlen : name.length > 0) :
    readEntry r type i ws = some (name, readValue type i (ws.getD i 0)) := by
  unfold readEntry
  rw [hname]
  simp only
  rw [if_pos hlen]

theorem readEntry_name (r type i : Nat) (ws : List Int) :
    (readEntry r type i ws).map Prod.fst =
      (getName r i).bind (fun n => if n.length > 0 then some n else none) := by
  unfold readEntry
  cases getName r i with
  | none => rfl
  | some name =>
    simp only [Option.some_bind]
    split_ifs <;> rfl

/-- The names assigned by the decode loop depend on the group only. -/
theorem readFields_names (r : Nat) (ws : List Int) (fields : List (String × JsonValue))
    (h : readFields r ws = some fields) :
    fields.map Prod.fst =
      (List.range (ventRegistrationSizes.getD r 0)).filterMap
        (fun i : Nat => (getName r i).bind (fun n => if n.length > 0 then some n else none)) := by
  unfold readFields at h
  cases ht : ventRegistrationTypes[r]? with
  | none => rw [ht] at h; simp at h
  | some type =>
    cases hn : ventRegistrationSizes[r]? with
    | none => rw [ht, hn] at h; simp at h
    | some nums =>
      rw [ht, hn] at h
      simp only [Option.some.injEq] at h
      have hd : ventRegistrationSizes.getD r 0 = nums := by
        rw [List.getD_eq_getElem?_getD, hn]; rfl
      rw [← h, hd, List.map_filterMap]
      simp only [readEntry_name]

set_option maxRecDepth 1000000 in
/-- For each of the 20 groups the named positions below the word count, read through
`getName`, are the names of the row prefix, and no name occurs twice among them. -/
theorem names_table : ∀ r : Fin 20,
    (List.range (ventRegistrationSizes.getD r.val 0)).filterMap
        (fun i : Nat => (getName r.val i).bind (fun n => if n.length > 0 then some n else none))
      = readableNames r.val ∧ (readableNames r.val).Nodup := by
  decide

theorem readFields_total (r : Nat) (hr : r < 20) (ws : List Int) :
    ∃ fields, readFields r ws = some fields := by
  have h1 : r < ventRegistrationTypes.length := by
    have : ventRegistrationTypes.length = 20 := by decide
    omega
  have h2 : r < ventRegistrationSizes.length := by
    have : ventRegistrationSizes.length = 20 := by decide
    omega
  unfold readFields
  rw [List.getElem?_eq_getElem h1, List.getElem?_eq_getElem h2]
  exact ⟨_, rfl⟩

/-- Bytes of a non-negative word below `0x8000`. -/
theorem packedAscii_bytes (hi lo : Nat) (hhi : hi < 128) (hlo : lo < 256) :
    packedAscii ((hi * 256 + lo : Nat) : Int) =
      String.mk ((trimBlank [hi, lo]).map Char.ofNat) := by
  unfold packedAscii
  have h1 : (Int.land ((hi * 256 + lo : Nat) : Int) 0x00ff).toNat = lo := by
    show (((hi * 256 + lo) &&& 0xff : Nat) : Int).toNat = lo
    rw [Int.toNat_ofNat, show (0xff : Nat) = 2 ^ 8 - 1 from rfl,
      Nat.and_pow_two_sub_one_eq_mod]
    omega
  have h2 : ((((hi * 256 + lo : Nat) : Int) >>> 8) % 256).toNat = hi := by
    show ((((hi * 256 + lo) >>> 8 : Nat) : Int) % 256).toNat = hi
    rw [Nat.shiftRight_eq_div_pow]
    omega
  simp only [h1, h2]
  rfl

set_option maxRecDepth 1000000 in
/-- Apart from the groups temp2 (1) and inputairtemp (14) every declared name lies below
the word count of its group. -/
theorem names_all_readable : ∀ r : Fin 20, r.val ≠ 1 → r.val ≠ 14 →
    readableNames r.val = declaredNames r.val := by
  decide

/-! ## C8 -/

/-- C8, counterexample: the group app (index 15) has catalog type 2 and names its index 0
"Bus.Version"; the read decode stores the word 0x4142 there as the integer 16706, not as
the string "AB". -/
theorem packed_ascii_index0_is_raw :
    ventRegistrationTypes[15]? = some 2 ∧ getName 15 0 = some "Bus.Version" ∧
    readEntry 15 2 0 [0x4142, 0x4142, 0x4142, 0x4142]
      = some ("Bus.Version", JsonValue.int 0x4142) ∧
    readEntry 15 2 0 [0x4142, 0x4142, 0x4142, 0x4142]
      ≠ some ("Bus.Version", JsonValue.str (packedAscii 0x4142)) := by
  decide

/-- C8, amended: in the read operation of `HandleRequest`, for a group of catalog type 4 at
every named index below the word count, and for a group of catalog type 2 at every such
index above 0, the value stored is the string of the high byte of the word followed by its
low byte, blanks trimmed: two non-blank bytes give both characters, a blank high byte
gives the low character alone, 0x4142 gives "AB" and 0x0041 gives "A".  At index 0 of a
group of type 2 the value stored is the raw integer. -/
theorem packed_ascii_read (r type nums i : Nat) (ws : List Int) (name : String)
    (ht : ventRegistrationTypes[r]? = some type) (hn : ventRegistrationSizes[r]? = some nums)
    (hi : i < nums) (hname : getName r i = some name) (hlen : name.length > 0) :
    (type = 4 ∨ (type = 2 ∧ 0 < i) →
      ∃ fields, readFields r ws = some fields ∧
        (name, JsonValue.str (packedAscii (ws.getD i 0))) ∈ fields) ∧
    (type = 2 → i = 0 →
      ∃ fields, readFields r ws = some fields ∧
        (name, JsonValue.int (ws.getD i 0)) ∈ fields) ∧
    (∀ a b : Nat, a < 128 → b < 256 → isBlank a = false → isBlank b = false →
      packedAscii ((a * 256 + b : Nat) : Int) = String.mk [Char.ofNat a, Char.ofNat b]) ∧
    (∀ a b : Nat, a < 128 → b < 256 → isBlank a = true → isBlank b = false →
      packedAscii ((a * 256 + b : Nat) : Int) = String.mk [Char.ofNat b]) ∧
    packedAscii 0x4142 = "AB" ∧ packedAscii 0x0041 = "A" := by
  have he := readEntry_named r type i ws name hname hlen
  refine ⟨?_, ?_, ?_, ?_, by decide, by decide⟩
  · intro h
    apply readFields_mem r type nums i ws _ ht hn hi
    rw [he, readValue, if_pos (by omega)]
  · intro h2 h0
    apply readFields_mem r type nums i ws _ ht hn hi
    rw [he, readValue, if_neg (by omega), if_neg (by omega)]
  · intro a b ha hb na nb
    rw [packedAscii_bytes a b ha hb]
    simp [trimBlank, List.dropWhile, na, nb]
  · intro a b ha hb na nb
    rw [packedAscii_bytes a b ha hb]
    simp [trimBlank, List.dropWhile, na, nb]

set_option maxRecDepth 1000000 in
/-- C8, amended, at inputs: "VersionMajor" of the group app (type 2, index 1) and "Text_1_2"
of the group display1 (type 4, index 0) for the words 0x4142 and 0x2041. -/
theorem packed_ascii_read_witness :
    (∃ fields, readFields 15 [7, 0x4142, 0x2041, 0x3130] = some fields ∧
      ("VersionMajor", JsonValue.str (packedAscii ([7, 0x4142, 0x2041, 0x3130].getD 1 0)))
        ∈ fields) ∧
    (∃ fields, readFields 15 [7, 0x4142, 0x2041, 0x3130] = some fields ∧
      ("Bus.Version", JsonValue.int ([7, 0x4142, 0x2041, 0x3130].getD 0 0)) ∈ fields) ∧
    (∃ fields, readFields 17 [0x2041, 0x4142, 0x4142, 0x4142] = some fields ∧
      ("Text_1_2", JsonValue.str (packedAscii ([0x2041, 0x4142, 0x4142, 0x4142].getD 0 0)))
        ∈ fields) ∧
    packedAscii ((0x20 * 256 + 0x41 : Nat) : Int) = String.mk [Char.ofNat 0x41] :=
  ⟨(packed_ascii_read 15 2 4 1 [7, 0x4142, 0x2041, 0x3130] "VersionMajor" (by decide)
      (by decide) (by decide) (by decide) (by decide)).1 (Or.inr (by decide)),
   (packed_ascii_read 15 2 4 0 [7, 0x4142, 0x2041, 0x3130] "Bus.Version" (by decide)
      (by decide) (by decide) (by decide) (by decide)).2.1 rfl rfl,
   (packed_ascii_read 17 4 4 0 [0x2041, 0x4142, 0x4142, 0x4142] "Text_1_2" (by decide)
      (by decide) (by decide) (by decide) (by decide)).1 (Or.inl rfl),
   (packed_ascii_read 17 4 4 0 [0x2041, 0x4142, 0x4142, 0x4142] "Text_1_2" (by decide)
      (by decide) (by decide) (by decide) (by decide)).2.2.2.1 0x20 0x41 (by decide)
      (by decide) (by decide) (by decide)⟩

/-! ## C9 -/

set_option maxRecDepth 1000000 in
/-- C9, counterexample: the row of temp2 (group 1) declares "T15_Room" and "RH" at positions
8 and 14, the word count of the group is 2, and the read decode of two words emits the
names "T7_Inlet" and "T8_Outdoor" only. -/
theorem read_temp2_omits_declared_names :
    "T15_Room" ∈ declaredNames 1 ∧ "RH" ∈ declaredNames 1 ∧
    ventRegistrationSizes[1]? = some 2 ∧
    (readFields 1 [0, 0]).map (List.map Prod.fst) = some ["T7_Inlet", "T8_Outdoor"] := by
  decide

/-- C9, amended: for every register group and every raw word array the read decode of
`HandleRequest` emits exactly the names that `ventRegistrationNames` declares for the group
at positions below `ventRegistrationSizes[g]` (every non-null, non-empty name, each once,
in table order) and nothing for the other positions; for every group but temp2 and
inputairtemp these are all the names declared for the group. -/
theorem read_emits_names_below_count (r : Nat) (hr : r < 20) (ws : List Int) :
    (∃ fields, readFields r ws = some fields ∧ fields.map Prod.fst = readableNames r ∧
      (fields.map Prod.fst).Nodup) ∧
    (r ≠ 1 → r ≠ 14 → readableNames r = declaredNames r) := by
  constructor
  · obtain ⟨fields, hf⟩ := readFields_total r hr ws
    have hn := readFields_names r ws fields hf
    have ht := names_table ⟨r, hr⟩
    refine ⟨fields, hf, ?_, ?_⟩
    · rw [hn]; exact ht.1
    · rw [hn, ht.1]; exact ht.2
  · intro h1 h14
    exact names_all_readable ⟨r, hr⟩ h1 h14

/-- C9, amended, at an input: the alarm group (3) with ten words. -/
theorem read_emits_names_below_count_witness :
    (∃ fields, readFields 3 [0, 3, 22639, 26947, 0, 0, 0, 0, 0, 0] = some fields ∧
      fields.map Prod.fst = readableNames 3 ∧ (fields.map Prod.fst).Nodup) ∧
    (3 ≠ 1 → 3 ≠ 14 → readableNames 3 = declaredNames 3) :=
  read_emits_names_below_count 3 (by decide) [0, 3, 22639, 26947, 0, 0, 0, 0, 0, 0]

/-! ## C10 -/

/-- C10: in the read operation of `HandleRequest`, for a group of catalog type 8 and every
named index below the word count, the value stored for the word `w` is the float `w / 100`;
2300 gives 23 and -150 gives -3/2. -/
theorem fixed_point2_read (r nums i : Nat) (ws : List Int) (name : String)
    (ht : ventRegistrationTypes[r]? = some 8) (hn : ventRegistrationSizes[r]? = some nums)
    (hi : i < nums) (hname : getName r i = some name) (hlen : name.length > 0) :
    (∃ fields, readFields r ws = some fields ∧
      (name, JsonValue.float ((ws.getD i 0 : ℚ) / 100)) ∈ fields) ∧
    readValue 8 i 2300 = JsonValue.float 23 ∧
    readValue 8 i (-150) = JsonValue.float (-3 / 2) := by
  have he := readEntry_named r 8 i ws name hname hlen
  refine ⟨?_, ?_, ?_⟩
  · apply readFields_mem r 8 nums i ws _ ht hn hi
    rw [he, readValue, if_neg (by omega), if_pos rfl]
  · rw [readValue, if_neg (by omega), if_pos rfl]
    norm_num
  · rw [readValue, if_neg (by omega), if_pos rfl]
    norm_num

set_option maxRecDepth 1000000 in
/-- C10 at an input: "T4_Outlet" of the group temp1 (0) for the words 2300 and -150. -/
theorem fixed_point2_read_witness :
    (∃ fields, readFields 0 [2300, -150] = some fields ∧
      ("T4_Outlet", JsonValue.float ((([2300, -150] : List Int).getD 1 0 : ℚ) / 100))
        ∈ fields) ∧
    readValue 8 1 2300 = JsonValue.float 23 ∧
    readValue 8 1 (-150) = JsonValue.float (-3 / 2) :=
  fixed_point2_read 0 2 1 [2300, -150] "T4_Outlet" (by decide) (by decide) (by decide)
    (by decide) (by decide)

/-! ## Bus access guard: spacing and deadline away from the signed wrap of the clock -/

/-- A call that does not have to wait returns at once with the deadline moved. -/
theorem modbusCool_free (d : Int) (s : Gateway) (hw : mustWait s = false) :
    ∃ t, modbusCool d s = some t ∧ t.millis = s.millis ∧ t.rebooted = s.rebooted ∧
      t.trace = s.trace ∧ t.modbusCooldown = wrap32 (s.millis + d) := by
  have hw2 : ¬ toLong s.millis < s.modbusCooldown := by simpa [mustWait] using hw
  unfold modbusCool
  rw [if_neg hw2]
  dsimp only
  split_ifs <;> exact ⟨_, rfl, rfl, rfl, rfl, rfl⟩

theorem wrap32_clock_add (m : Nat) (d : Int) (h0 : 0 ≤ d) (h1 : toLong m + d < 2147483648) :
    wrap32 ((m : Int) + d) = toLong m + d := by
  unfold toLong wrap32 at *
  omega

/-- Away from the signed wrap of the clock a call returns no earlier than the stored
deadline and leaves the deadline no lower than it was. -/
theorem modbusCool_keeps_order (d : Int) (s : Gateway) (hd : 0 ≤ d)
    (hcd : s.modbusCooldown ≤ 2147483627) (h0 : 0 ≤ s.modbusCooldownHit) :
    ∃ t, modbusCool d s = some t ∧
      (t.rebooted = false → s.modbusCooldown ≤ toLong t.millis ∧
        t.modbusCooldown = wrap32 (t.millis + d) ∧
        (toLong t.millis + d < 2147483648 → s.modbusCooldown ≤ t.modbusCooldown)) := by
  by_cases hw : mustWait s = true
  · by_cases h50 : s.modbusCooldownHit ≤ 50
    · obtain ⟨t, e, _, _, _, hm, hc⟩ := modbusCool_wait d s hw hcd h0 h50
      refine ⟨t, e, fun _ => ⟨by omega, hc, fun hno => ?_⟩⟩
      rw [hc, wrap32_clock_add t.millis d hd hno]; omega
    · obtain ⟨t, e, hr, _⟩ := modbusCool_fatal d s hw (by omega)
      refine ⟨t, e, fun hf => ?_⟩
      rw [hr] at hf
      exact absurd hf (by decide)
  · obtain ⟨t, e, hm, _, _, hc⟩ := modbusCool_free d s (by simpa using hw)
    have hw2 : ¬ toLong s.millis < s.modbusCooldown := by simpa [mustWait] using hw
    refine ⟨t, e, fun _ => ⟨by rw [hm]; omega, by rw [hc, hm], fun hno => ?_⟩⟩
    rw [hc, ← hm, wrap32_clock_add t.millis d hd hno, hm]; omega

/-- Two consecutive calls away from the signed wrap of the clock: the second one returns
no earlier than the first one returned plus its argument. -/
theorem modbusCool_spacing_before_wrap (d d2 : Int) (dt : Nat) (s : Gateway) (hd : 0 ≤ d)
    (hd2 : 0 ≤ d2) (hcd : s.modbusCooldown ≤ 2147483627) (h0 : 0 ≤ s.modbusCooldownHit) :
    ∃ t1, modbusCool d s = some t1 ∧
      (t1.rebooted = false → toLong t1.millis + d ≤ 2147483627 →
        ∃ t2, modbusCool d2 (elapse dt t1) = some t2 ∧
          (t2.rebooted = false → toLong t1.millis + d ≤ toLong t2.millis)) := by
  obtain ⟨t1, e1, h1⟩ := modbusCool_keeps_order d s hd hcd h0
  refine ⟨t1, e1, fun hr hno => ?_⟩
  obtain ⟨_, hc, _⟩ := h1 hr
  have hcd1 : (elapse dt t1).modbusCooldown = toLong t1.millis + d := by
    show t1.modbusCooldown = _
    rw [hc, wrap32_clock_add t1.millis d hd (by omega)]
  have hhit : 0 ≤ (elapse dt t1).modbusCooldownHit := by
    show 0 ≤ t1.modbusCooldownHit
    by_cases hw : mustWait s = true
    · by_cases h50 : s.modbusCooldownHit ≤ 50
      · obtain ⟨t, e, hh, _⟩ := modbusCool_wait d s hw hcd h0 h50
        rw [e1] at e
        have : t1 = t := Option.some.inj e
        rw [this, hh]; omega
      · obtain ⟨t, e, hrb, _⟩ := modbusCool_fatal d s hw (by omega)
        rw [e1] at e
        have : t1 = t := Option.some.inj e
        rw [this, hrb] at hr
        exact absurd hr (by decide)
    · have hw2 : ¬ toLong s.millis < s.modbusCooldown := by simpa [mustWait] using hw
      unfold modbusCool at e1
      rw [if_neg hw2] at e1
      simp only [Option.some.injEq] at e1
      rw [← e1]
      dsimp only
      split_ifs <;> first | exact h0 | exact le_refl _
  obtain ⟨t2, e2, h2⟩ := modbusCool_keeps_order d2 (elapse dt t1) hd2 (by rw [hcd1]; omega) hhit
  refine ⟨t2, e2, fun hr2 => ?_⟩
  have := (h2 hr2).1
  rw [hcd1] at this
  exact this

/-! ## C11 -/

set_option maxRecDepth 1000000 in
/-- C11, at the failing input: with the clock at 2147483548 ms (100 ms before 2^31) and no
deadline pending, `modbusCool(200)` returns at once and stores the deadline
2147483748 - 2^32 = -2147483548; a second `modbusCool(200)` 50 ms later compares the clock
2147483598 with that negative deadline, does not wait and returns at 2147483598, which
is less than 200 ms after the first call returned. -/
theorem modbusCool_no_spacing_at_signed_wrap :
    (coolCalls [(0, 200)] { Gateway.boot with millis := 2147483548 }).map
      (fun t => (t.millis, t.modbusCooldown)) = some (2147483548, -2147483548) ∧
    (coolCalls [(0, 200), (50, 200)] { Gateway.boot with millis := 2147483548 }).map
      (fun t => (t.millis, t.rebooted)) = some (2147483598, false) ∧
    (2147483598 : Nat) < 2147483548 + 200 := by
  decide

/-! ## C12 -/

set_option maxRecDepth 1000000 in
/-- C12, at the failing input: with the clock at 2147483548 ms and the deadline
2147483000 already passed, `modbusCool(200)` replaces the deadline by
2147483748 - 2^32 = -2147483548, which is lower than the deadline it found. -/
theorem modbusCool_deadline_falls_at_signed_wrap :
    (modbusCool 200 { Gateway.boot with millis := 2147483548,
                                        modbusCooldown := 2147483000 }).map
      (fun t => (t.modbusCooldown, t.rebooted)) = some (-2147483548, false) ∧
    (-2147483548 : Int) < 2147483000 := by
  decide

/-! ## Pulse detector: thresholds and hysteresis -/

theorem readIR_level (a : Int) (s : Gateway) :
    (readIR a s).1 = (if s.fakeIr > 0 then s.fakeIr else a) ∧
    (readIR a s).2.fakeIr = s.fakeIr ∧
    (readIR a s).2.waterLastLevel = s.waterLastLevel := by
  unfold readIR
  dsimp only
  split_ifs <;> exact ⟨rfl, rfl, rfl⟩

/-- What `readIR` leaves in the envelope and the middle. -/
theorem readIR_middle (a : Int) (s : Gateway) :
    (¬ (readIR a s).1 > s.waterIrMax → (readIR a s).1 < s.waterIrMin →
      (readIR a s).2.waterIrMax = s.waterIrMax ∧
      (readIR a s).2.waterIrMin = (readIR a s).1 ∧
      (readIR a s).2.waterIrMiddle =
        (if Int.tdiv (wrap32 (s.waterIrMax + (readIR a s).1)) 2 < 100 then 200
         else Int.tdiv (wrap32 (s.waterIrMax + (readIR a s).1)) 2)) ∧
    ((readIR a s).1 > s.waterIrMax ∨ ¬ (readIR a s).1 < s.waterIrMin →
      (readIR a s).2.waterIrMiddle =
        (if s.waterIrMiddle < 100 then 200 else s.waterIrMiddle)) := by
  unfold readIR
  dsimp only
  constructor
  · intro h1 h2
    rw [if_neg h1, if_pos h2]
    dsimp only
    split_ifs <;> exact ⟨rfl, rfl, rfl⟩
  · intro h
    rcases h with h | h
    · rw [if_pos h]
      dsimp only
      split_ifs <;> rfl
    · by_cases h1 : (if s.fakeIr > 0 then s.fakeIr else a) > s.waterIrMax
      · rw [if_pos h1]
        dsimp only
        split_ifs <;> rfl
      · rw [if_neg h1, if_neg h]
        split_ifs <;> rfl

theorem readIR_floor (a : Int) (s : Gateway) : 100 ≤ (readIR a s).2.waterIrMiddle := by
  obtain ⟨h1, h2⟩ := readIR_middle a s
  by_cases c1 : (readIR a s).1 > s.waterIrMax
  · rw [h2 (Or.inl c1)]
    split_ifs <;> omega
  · by_cases c2 : (readIR a s).1 < s.waterIrMin
    · rw [(h1 c1 c2).2.2]
      split_ifs <;> omega
    · rw [h2 (Or.inr c2)]
      split_ifs <;> omega

theorem acceptLevel_middle (x : Int) (s : Gateway) :
    (acceptLevel x s).waterIrMiddle = s.waterIrMiddle := by
  unfold acceptLevel
  dsimp only
  split_ifs <;> rfl

theorem trackReal_middle (s : Gateway) : (trackReal s).waterIrMiddle = s.waterIrMiddle := by
  unfold trackReal
  split_ifs <;> rfl

theorem incrementTicks_middle (online : Bool) (c : Int) (s : Gateway) :
    (incrementTicks online c s).waterIrMiddle = s.waterIrMiddle := by
  unfold incrementTicks Gateway.emit
  dsimp only
  split_ifs <;> rfl

theorem waterSwitch_middle (fp : Drift) (online : Bool) (s : Gateway) :
    (waterSwitch fp online s).waterIrMiddle = s.waterIrMiddle := by
  unfold waterSwitch
  split_ifs
  · unfold waterCase0 Gateway.emit
    dsimp only
    split_ifs <;> rfl
  · unfold waterCase1 Gateway.emit
    dsimp only
    split_ifs <;> rfl
  · unfold waterCase2 Gateway.emit
    dsimp only
    split_ifs <;> rfl
  · unfold waterCase3 Gateway.emit
    dsimp only
    split_ifs <;> first | rfl | exact incrementTicks_middle _ _ _
  · rfl

theorem waterSample_middle (fp : Drift) (a : Int) (online : Bool) (s : Gateway) :
    (waterSample fp a online s).waterIrMiddle = (readIR a s).2.waterIrMiddle := by
  unfold waterSample
  dsimp only
  rw [waterSwitch_middle, trackReal_middle, acceptLevel_middle]

/-! ## C13 -/

/-- C13: for every state of the thresholds and every sample, `readIR` leaves `waterIrMiddle`
at 100 or above; the value left is 200 whenever the middle it computed (a new minimum) or
held (any other sample) is below 100, and is that middle otherwise. -/
theorem readIR_middle_floor (a : Int) (s : Gateway) :
    100 ≤ (readIR a s).2.waterIrMiddle ∧
    (¬ (readIR a s).1 > s.waterIrMax → (readIR a s).1 < s.waterIrMin →
      (readIR a s).2.waterIrMiddle =
        (if Int.tdiv (wrap32 (s.waterIrMax + (readIR a s).1)) 2 < 100 then 200
         else Int.tdiv (wrap32 (s.waterIrMax + (readIR a s).1)) 2)) ∧
    ((readIR a s).1 > s.waterIrMax ∨ ¬ (readIR a s).1 < s.waterIrMin →
      (readIR a s).2.waterIrMiddle =
        (if s.waterIrMiddle < 100 then 200 else s.waterIrMiddle)) :=
  ⟨readIR_floor a s, fun h1 h2 => ((readIR_middle a s).1 h1 h2).2.2, (readIR_middle a s).2⟩

set_option maxRecDepth 100000 in
/-- C13 at inputs: a new minimum of 20 under a maximum of 150 computes the middle 85 and
leaves 200; a held middle of 40 is replaced by 200 as well. -/
theorem readIR_middle_floor_witness :
    (readIR 20 { Gateway.boot with waterIrMax := 150 }).2.waterIrMiddle = 200 ∧
    (readIR 300 { Gateway.boot with waterIrMiddle := 40 }).2.waterIrMiddle = 200 :=
  ⟨((readIR_middle_floor 20 { Gateway.boot with waterIrMax := 150 }).2.1
      (by decide) (by decide)).trans (by decide),
   ((readIR_middle_floor 300 { Gateway.boot with waterIrMiddle := 40 }).2.2
      (Or.inr (by decide))).trans (by decide)⟩

/-! ## C19 -/

set_option maxRecDepth 100000 in
/-- C19, counterexample: from the boot state the sample 800 raises `waterIrMax` to 800 and
leaves `waterIrMiddle` at 400, which is neither (800 + 100) / 2 = 450 nor the clamp
value 200. -/
theorem middle_not_midpoint_after_new_maximum :
    (waterSample Drift.exact 800 true Gateway.boot).waterIrMax = 800 ∧
    (waterSample Drift.exact 800 true Gateway.boot).waterIrMin = 100 ∧
    (waterSample Drift.exact 800 true Gateway.boot).waterIrMiddle = 400 ∧
    (waterSample Drift.exact 800 true Gateway.boot).waterIrMiddle ≠
      Int.tdiv ((waterSample Drift.exact 800 true Gateway.boot).waterIrMax +
        (waterSample Drift.exact 800 true Gateway.boot).waterIrMin) 2 ∧
    (waterSample Drift.exact 800 true Gateway.boot).waterIrMiddle ≠ 200 := by
  decide

/-- C19, amended: in a sample step only `readIR` writes `waterIrMiddle`.  When the level is
a new minimum (below `waterIrMin` and not above `waterIrMax`) `readIR` leaves
`waterIrMiddle` equal to `(waterIrMax + waterIrMin) / 2`, in integer division, of the
envelope it leaves, replaced by 200 when that is below 100; for every other level it
leaves the middle it held, replaced by 200 when that is below 100.  The phase switch,
which moves `waterIrMax` and `waterIrMin` on the transitions 1 -> 2 and 3 -> 0, never
changes `waterIrMiddle`. -/
theorem middle_recomputed_on_new_minimum (fp : Drift) (a : Int) (online : Bool)
    (s : Gateway) :
    (waterSample fp a online s).waterIrMiddle = (readIR a s).2.waterIrMiddle ∧
    (¬ (readIR a s).1 > s.waterIrMax → (readIR a s).1 < s.waterIrMin →
      (readIR a s).2.waterIrMiddle =
        (if Int.tdiv (wrap32 ((readIR a s).2.waterIrMax + (readIR a s).2.waterIrMin)) 2 < 100
         then 200
         else Int.tdiv (wrap32 ((readIR a s).2.waterIrMax + (readIR a s).2.waterIrMin)) 2)) ∧
    ((readIR a s).1 > s.waterIrMax ∨ ¬ (readIR a s).1 < s.waterIrMin →
      (readIR a s).2.waterIrMiddle =
        (if s.waterIrMiddle < 100 then 200 else s.waterIrMiddle)) := by
  refine ⟨waterSample_middle fp a online s, ?_, (readIR_middle a s).2⟩
  intro h1 h2
  obtain ⟨e1, e2, e3⟩ := (readIR_middle a s).1 h1 h2
  rw [e1, e2]
  exact e3

set_option maxRecDepth 100000 in
/-- C19, amended, at inputs: from the boot state the sample 60 is a new minimum and leaves
the middle at (700 + 60) / 2 = 380; the sample 800 leaves the middle at 400. -/
theorem middle_recomputed_on_new_minimum_witness :
    (waterSample Drift.exact 60 true Gateway.boot).waterIrMiddle = 380 ∧
    (waterSample Drift.exact 800 true Gateway.boot).waterIrMiddle = 400 :=
  ⟨((middle_recomputed_on_new_minimum Drift.exact 60 true Gateway.boot).1.trans
      ((middle_recomputed_on_new_minimum Drift.exact 60 true Gateway.boot).2.1
        (by decide) (by decide))).trans (by decide),
   ((middle_recomputed_on_new_minimum Drift.exact 800 true Gateway.boot).1.trans
      ((middle_recomputed_on_new_minimum Drift.exact 800 true Gateway.boot).2.2
        (Or.inl (by decide)))).trans (by decide)⟩

/-! ## C18 -/

/-- C18: in every sample step the phase `waterState` stays or moves to the next phase of
the cycle 0 -> 1 -> 2 -> 3 -> 0, and `waterConsumptionCount` (below the largest `int`)
grows by exactly 1 in a step from phase 3 to phase 0 and is unchanged by every other
step. -/
theorem pulse_phase_step (fp : Drift) (a : Int) (online : Bool) (s : Gateway)
    (hlo : -2147483648 ≤ s.waterConsumptionCount)
    (hhi : s.waterConsumptionCount < 2147483647) :
    ((waterSample fp a online s).waterState = s.waterState ∧
      (waterSample fp a online s).waterConsumptionCount = s.waterConsumptionCount) ∨
    ((s.waterState = 0 ∨ s.waterState = 1 ∨ s.waterState = 2) ∧
      (waterSample fp a online s).waterState = s.waterState + 1 ∧
      (waterSample fp a online s).waterConsumptionCount = s.waterConsumptionCount) ∨
    (s.waterState = 3 ∧ (waterSample fp a online s).waterState = 0 ∧
      (waterSample fp a online s).waterConsumptionCount = s.waterConsumptionCount + 1) := by
  rcases waterSample_tally fp a online s with ⟨k1, k2, _⟩ | ⟨k0, k1, k2, k3, _⟩ | ⟨k0, k1, k2, _⟩
  · exact Or.inl ⟨k1, k2⟩
  · exact Or.inr (Or.inl ⟨by omega, k2, k3⟩)
  · exact Or.inr (Or.inr ⟨k0, k1, by rw [k2, wrap32_of_range _ (by omega) (by omega)]⟩)

set_option maxRecDepth 100000 in
/-- C18 at an input: in phase 3 after a level of 300, the sample 600 completes the cycle. -/
theorem pulse_phase_step_witness :
    ((waterSample Drift.exact 600 true
        { Gateway.boot with waterState := 3, waterLastLevel := 300 }).waterState = 0 ∧
     (waterSample Drift.exact 600 true
        { Gateway.boot with waterState := 3, waterLastLevel := 300 }).waterConsumptionCount
       = 1) := by
  rcases pulse_phase_step Drift.exact 600 true
      { Gateway.boot with waterState := 3, waterLastLevel := 300 } (by decide) (by decide)
    with ⟨k1, _⟩ | ⟨_, k1, _⟩ | ⟨_, k1, k2⟩
  · exact absurd k1 (by decide)
  · exact absurd k1 (by decide)
  · exact ⟨k1, k2⟩

/-! ## Pulse detector: a sample inside the hysteresis band -/

theorem acceptLevel_near (x : Int) (s : Gateway) (h : |x - s.waterLastLevel| < 30) :
    (acceptLevel x s).waterIrDiff = 0 ∧
    (acceptLevel x s).waterLastLevel = s.waterLastLevel ∧
    (acceptLevel x s).fakeIr = s.fakeIr := by
  have hb := abs_lt.mp h
  have hw : wrap32 (x - s.waterLastLevel) = x - s.waterLastLevel :=
    wrap32_of_range _ (by omega) (by omega)
  unfold acceptLevel
  dsimp only
  rw [hw, if_pos h]
  exact ⟨rfl, rfl, rfl⟩

theorem trackReal_keeps (s : Gateway) :
    (trackReal s).waterIrDiff = s.waterIrDiff ∧
    (trackReal s).waterLastLevel = s.waterLastLevel ∧
    (trackReal s).fakeIr = s.fakeIr := by
  unfold trackReal
  split_ifs <;> exact ⟨rfl, rfl, rfl⟩

/-- With a difference of 0 no case of the `switch` fires. -/
theorem waterSwitch_still (fp : Drift) (online : Bool) (s : Gateway)
    (h : s.waterIrDiff = 0) :
    (waterSwitch fp online s).waterState = s.waterState ∧
    (waterSwitch fp online s).waterConsumptionCount = s.waterConsumptionCount ∧
    tickCalls (waterSwitch fp online s).trace = tickCalls s.trace ∧
    (waterSwitch fp online s).waterLastLevel = s.waterLastLevel ∧
    (waterSwitch fp online s).fakeIr = s.fakeIr := by
  unfold waterSwitch
  split_ifs
  · unfold waterCase0 Gateway.emit
    rw [if_neg (by omega)]
    exact ⟨rfl, rfl, by simp [tickCalls_append, tickCalls], rfl, rfl⟩
  · unfold waterCase1 Gateway.emit
    rw [if_neg (by omega)]
    exact ⟨rfl, rfl, by simp [tickCalls_append, tickCalls], rfl, rfl⟩
  · unfold waterCase2 Gateway.emit
    rw [if_neg (by omega)]
    exact ⟨rfl, rfl, by simp [tickCalls_append, tickCalls], rfl, rfl⟩
  · unfold waterCase3 Gateway.emit
    rw [if_neg (by omega)]
    exact ⟨rfl, rfl, by simp [tickCalls_append, tickCalls], rfl, rfl⟩
  · exact ⟨rfl, rfl, rfl, rfl, rfl⟩

/-- One sample step whose level lies inside the hysteresis band. -/
theorem waterSample_still (fp : Drift) (a : Int) (online : Bool) (s : Gateway)
    (h : |(if s.fakeIr > 0 then s.fakeIr else a) - s.waterLastLevel| < 30) :
    (waterSample fp a online s).waterState = s.waterState ∧
    (waterSample fp a online s).waterConsumptionCount = s.waterConsumptionCount ∧
    tickCalls (waterSample fp a online s).trace = tickCalls s.trace ∧
    (waterSample fp a online s).waterLastLevel = s.waterLastLevel ∧
    (waterSample fp a online s).fakeIr = s.fakeIr := by
  obtain ⟨l1, l2, l3⟩ := readIR_level a s
  obtain ⟨r1, r2, r3⟩ := readIR_tally a s
  have hn : |(readIR a s).1 - (readIR a s).2.waterLastLevel| < 30 := by
    rw [l1, l3]; exact h
  obtain ⟨a1, a2, a3⟩ := acceptLevel_near (readIR a s).1 (readIR a s).2 hn
  obtain ⟨b1, b2, b3⟩ := acceptLevel_tally (readIR a s).1 (readIR a s).2
  obtain ⟨t1, t2, t3⟩ := trackReal_keeps (acceptLevel (readIR a s).1 (readIR a s).2)
  obtain ⟨u1, u2, u3⟩ := trackReal_tally (acceptLevel (readIR a s).1 (readIR a s).2)
  obtain ⟨w1, w2, w3, w4, w5⟩ := waterSwitch_still fp online
    (trackReal (acceptLevel (readIR a s).1 (readIR a s).2)) (by rw [t1, a1])
  have e : waterSample fp a online s =
      waterSwitch fp online (trackReal (acceptLevel (readIR a s).1 (readIR a s).2)) := rfl
  rw [e]
  exact ⟨by rw [w1, u1, b1, r1], by rw [w2, u2, b2, r2], by rw [w3, u3, b3, r3],
    by rw [w4, t2, a2, l3], by rw [w5, t3, a3, l2]⟩

/-! ## C14 -/

set_option maxRecDepth 100000 in
/-- C14 fails under the manual override.  The samples 600, 500, 200 and 300 from boot leave
the detector in phase 3 with the last accepted level 300.  With `fakeIr` then set to 500,
as the command `water/cmd/irlvl` sets it, the sample 310 differs from `waterLastLevel` by
10 only, yet the step compares the override level 500 with it: `incrementTicks(1)` is
called, the phase returns to 0, `waterLastLevel` becomes 500 and
`waterConsumptionCount` grows by 1.  Without the override the same sample changes
nothing. -/
theorem hysteresis_override_ticks :
    (waterRun Drift.exact [(600, true), (500, true), (200, true), (300, true)]
        Gateway.boot).waterState = 3 ∧
    (waterRun Drift.exact [(600, true), (500, true), (200, true), (300, true)]
        Gateway.boot).waterLastLevel = 300 ∧
    (waterRun Drift.exact [(600, true), (500, true), (200, true), (300, true)]
        Gateway.boot).waterConsumptionCount = 0 ∧
    tickCalls (waterRun Drift.exact [(600, true), (500, true), (200, true), (300, true)]
        Gateway.boot).trace = [] ∧
    |(310 : Int) - 300| < 30 ∧
    tickCalls (waterRun Drift.exact [(310, true)]
      { waterRun Drift.exact [(600, true), (500, true), (200, true), (300, true)]
          Gateway.boot with fakeIr := 500 }).trace = [1] ∧
    (waterRun Drift.exact [(310, true)]
      { waterRun Drift.exact [(600, true), (500, true), (200, true), (300, true)]
          Gateway.boot with fakeIr := 500 }).waterState = 0 ∧
    (waterRun Drift.exact [(310, true)]
      { waterRun Drift.exact [(600, true), (500, true), (200, true), (300, true)]
          Gateway.boot with fakeIr := 500 }).waterLastLevel = 500 ∧
    (waterRun Drift.exact [(310, true)]
      { waterRun Drift.exact [(600, true), (500, true), (200, true), (300, true)]
          Gateway.boot with fakeIr := 500 }).waterConsumptionCount = 1 ∧
    tickCalls (waterRun Drift.exact [(310, true)]
      (waterRun Drift.exact [(600, true), (500, true), (200, true), (300, true)]
        Gateway.boot)).trace = [] := by
  decide

/-- C14, amended: for every state of the detector and every sequence of samples whose
level, which is the sample itself or `fakeIr` while the manual override is set
(`fakeIr > 0`), differs from the last accepted level `waterLastLevel` by less than 30, the
sample steps never call `incrementTicks` and leave `waterState`, `waterLastLevel` and
`waterConsumptionCount` unchanged. -/
theorem hysteresis_band_no_event (fp : Drift) (samples : List (Int × Bool)) :
    ∀ s : Gateway,
    (∀ x ∈ samples, |(if s.fakeIr > 0 then s.fakeIr else x.1) - s.waterLastLevel| < 30) →
    tickCalls (waterRun fp samples s).trace = tickCalls s.trace ∧
    (waterRun fp samples s).waterState = s.waterState ∧
    (waterRun fp samples s).waterLastLevel = s.waterLastLevel ∧
    (waterRun fp samples s).waterConsumptionCount = s.waterConsumptionCount := by
  induction samples with
  | nil =>
    intro s _
    exact ⟨rfl, rfl, rfl, rfl⟩
  | cons x rest ih =>
    intro s h
    obtain ⟨k1, k2, k3, k4, k5⟩ :=
      waterSample_still fp x.1 x.2 s (h x (List.mem_cons_self x rest))
    have e : waterRun fp (x :: rest) s = waterRun fp rest (waterSample fp x.1 x.2 s) := by
      simp only [waterRun, List.foldl_cons]
    obtain ⟨i1, i2, i3, i4⟩ := ih (waterSample fp x.1 x.2 s) (by
      intro y hy
      rw [k5, k4]
      exact h y (List.mem_cons_of_mem x hy))
    rw [e]
    exact ⟨by rw [i1, k3], by rw [i2, k1], by rw [i3, k4], by rw [i4, k2]⟩

set_option maxRecDepth 100000 in
/-- C14, amended, at an input: in phase 3 after an accepted level of 385, the samples 400, 410, 395
and 414 stay within 30 of it although they cross the middle of 400. -/
theorem hysteresis_band_no_event_witness :
    tickCalls (waterRun Drift.exact [(400, true), (410, true), (395, false), (414, true)]
      { Gateway.boot with waterState := 3, waterLastLevel := 385 }).trace
      = tickCalls ({ Gateway.boot with waterState := 3, waterLastLevel := 385 } : Gateway).trace ∧
    (waterRun Drift.exact [(400, true), (410, true), (395, false), (414, true)]
      { Gateway.boot with waterState := 3, waterLastLevel := 385 }).waterState
      = ({ Gateway.boot with waterState := 3, waterLastLevel := 385 } : Gateway).waterState ∧
    (waterRun Drift.exact [(400, true), (410, true), (395, false), (414, true)]
      { Gateway.boot with waterState := 3, waterLastLevel := 385 }).waterLastLevel
      = ({ Gateway.boot with waterState := 3, waterLastLevel := 385 } : Gateway).waterLastLevel ∧
    (waterRun Drift.exact [(400, true), (410, true), (395, false), (414, true)]
      { Gateway.boot with waterState := 3, waterLastLevel := 385 }).waterConsumptionCount
      = ({ Gateway.boot with waterState := 3,
                             waterLastLevel := 385 } : Gateway).waterConsumptionCount :=
  hysteresis_band_no_event Drift.exact [(400, true), (410, true), (395, false), (414, true)]
    { Gateway.boot with waterState := 3, waterLastLevel := 385 } (by decide)

/-! ## Alarm id lookup: indices read -/

theorem alarmScanReads_reaches_end (w : Int) : ∀ (k p n : Nat), p + k = 64 → k < n →
    (∀ q, p ≤ q → q < 64 → ventAlarmListNumber[q]? ≠ some w) →
    64 ∈ alarmScanReads w n p := by
  intro k
  induction k with
  | zero =>
    intro p n hp hn _
    obtain ⟨m, rfl⟩ : ∃ m, n = m + 1 := ⟨n - 1, by omega⟩
    have h64 : p = 64 := by omega
    subst h64
    have hnone : ventAlarmListNumber[64]? = none := by decide
    simp only [alarmScanReads, hnone, List.mem_singleton]
  | succ k ih =>
    intro p n hp hn hne
    obtain ⟨m, rfl⟩ : ∃ m, n = m + 1 := ⟨n - 1, by omega⟩
    have hlen : p < ventAlarmListNumber.length := by
      have : ventAlarmListNumber.length = 64 := by decide
      omega
    have hsome : ventAlarmListNumber[p]? = some ventAlarmListNumber[p] :=
      List.getElem?_eq_getElem hlen
    have hv : ventAlarmListNumber[p] ≠ w := by
      intro hv
      exact hne p (le_refl _) (by omega) (by rw [hsome, hv])
    rw [alarmScanReads, hsome]
    simp only [hv, if_false, List.mem_cons]
    exact Or.inr (ih (p + 1) m (by omega) (by omega)
      (fun q hq1 hq2 => hne q (by omega) hq2))

/-- A positive word equal to no entry of `ventAlarmListNumber` makes the lookup loop read
`ventAlarmListNumber[64]`, one past the last entry. -/
theorem alarmScanReads_unmapped (w : Int) (hw : w ∉ ventAlarmListNumber) :
    64 ∈ alarmScanReads w sizeofVentAlarmListNumber 0 :=
  alarmScanReads_reaches_end w 64 0 sizeofVentAlarmListNumber rfl (by decide)
    (fun q _ _ hq => hw (List.getElem?_mem hq))

set_option maxRecDepth 100000 in
/-- A word equal to an entry of `ventAlarmListNumber` keeps every read inside the 64
entries. -/
theorem alarmScanReads_mapped :
    ∀ w ∈ ventAlarmListNumber, ∀ p ∈ alarmScanReads w sizeofVentAlarmListNumber 0, p < 64 := by
  decide

/-! ## C20 -/

set_option maxRecDepth 100000 in
/-- C20 at the failing input: for the alarm id word 60, which is positive and equal to no
entry of `ventAlarmListNumber`, the lookup loop reads the indices 0 to 64 of a table of 64
entries, so the last read is outside the table and the lookup has no defined result. -/
theorem alarm_lookup_reads_past_table :
    alarmScanReads 60 sizeofVentAlarmListNumber 0 = List.range 65 ∧
    ventAlarmListNumber.length = 64 ∧
    ¬ ((64 : Nat) < ventAlarmListNumber.length) ∧
    alarmIdString 60 = none := by
  decide

/-! ## Bus transactions: the guard returns -/

theorem writeCalls_append (a b : List Event) :
    writeCalls (a ++ b) = writeCalls a ++ writeCalls b := by
  induction a with
  | nil => rfl
  | cons e rest ih => cases e <;> simp [writeCalls, ih]

theorem incrementTicks_count (online : Bool) (c : Int) (s : Gateway) :
    (incrementTicks online c s).waterConsumptionCount
      = wrap32 (s.waterConsumptionCount + c) := by
  unfold incrementTicks Gateway.emit
  dsimp only
  split_ifs <;> rfl

theorem mqttCallback_total (toInt : List Nat → Int) (online : Bool) (payload : List Nat)
    (s : Gateway) (hp : payload ≠ []) :
    (mqttCallback toInt online "water/cmd/total" payload s).map
      (fun t => t.waterConsumptionCount) = some (wrap32 (toInt payload)) := by
  have hl : payload.length > 0 := List.length_pos.mpr hp
  unfold mqttCallback
  rw [if_neg (by decide), if_neg (by decide), if_neg (by decide), if_neg (by decide),
    if_neg (by decide), if_neg (by decide), if_neg (by decide), if_pos rfl, if_pos hl]
  dsimp only
  rw [Option.map_some', incrementTicks_count]
  show some (wrap32 (wrap32 (toInt payload) + 0)) = _
  rw [add_zero]
  unfold wrap32
  congr 1
  omega

theorem mqttCallback_recovery (toInt : List Nat → Int) (online : Bool) (payload : List Nat)
    (s : Gateway) :
    (s.waterWaitingForConsumptionCount = true →
      (mqttCallback toInt online "water/total" payload s).map
        (fun t => (t.waterConsumptionCount, t.waterWaitingForConsumptionCount))
        = some (wrap32 (toInt payload), false)) ∧
    (s.waterWaitingForConsumptionCount = false →
      mqttCallback toInt online "water/total" payload s
        = some (s.emit (Event.publish "ventilation/error/topic" "water/total" false))) := by
  constructor
  · intro hw
    unfold mqttCallback
    rw [if_neg (by decide), if_neg (by decide), if_neg (by decide), if_neg (by decide),
      if_neg (by decide), if_neg (by decide), if_neg (by decide), if_neg (by decide),
      if_neg (by decide), if_pos ⟨hw, rfl⟩]
    rfl
  · intro hw
    unfold mqttCallback
    rw [if_neg (by decide), if_neg (by decide), if_neg (by decide), if_neg (by decide),
      if_neg (by decide), if_neg (by decide), if_neg (by decide), if_neg (by decide),
      if_neg (by decide), if_neg (by rw [hw]; simp)]

/-! ## C15 -/

set_option maxRecDepth 100000 in
/-- C15 fails: with a total of 100, the payload `"5"` on `water/cmd/total` leaves the total
at 5, and so does the payload `"5"` on `water/total` while the recovery of the total is
pending. -/
theorem consumption_total_lowered_by_command :
    (mqttCallback decimalValue true "water/cmd/total" [53]
        { Gateway.boot with waterConsumptionCount := 100 }).map
      (fun t => t.waterConsumptionCount) = some 5 ∧
    (mqttCallback decimalValue true "water/total" [53]
        { Gateway.boot with waterConsumptionCount := 100 }).map
      (fun t => t.waterConsumptionCount) = some 5 ∧
    (5 : Int) < 100 := by
  decide

/-- C15 amended: `incrementTicks` with a consumption that is not negative and the pulse
sample step never leave `waterConsumptionCount` (an `int` that stays below its largest
value) lower than it was; `mqttCallback` on `water/cmd/total` with a payload that is not
empty, and on `water/total` while the recovery is pending, set it to the integer value of
the payload, whatever it was before; `water/total` after the recovery leaves it alone. -/
theorem consumption_total_writers (fp : Drift) (a c : Int) (online : Bool)
    (toInt : List Nat → Int) (payload : List Nat) (s : Gateway)
    (hlo : -2147483648 ≤ s.waterConsumptionCount) (hc : 0 ≤ c)
    (hhi : s.waterConsumptionCount + c < 2147483648) (hp : payload ≠ []) :
    s.waterConsumptionCount ≤ (incrementTicks online c s).waterConsumptionCount ∧
    (s.waterConsumptionCount < 2147483647 →
      s.waterConsumptionCount ≤ (waterSample fp a online s).waterConsumptionCount) ∧
    (mqttCallback toInt online "water/cmd/total" payload s).map
      (fun t => t.waterConsumptionCount) = some (wrap32 (toInt payload)) ∧
    (s.waterWaitingForConsumptionCount = true →
      (mqttCallback toInt online "water/total" payload s).map
        (fun t => t.waterConsumptionCount) = some (wrap32 (toInt payload))) ∧
    (s.waterWaitingForConsumptionCount = false →
      (mqttCallback toInt online "water/total" payload s).map
        (fun t => t.waterConsumptionCount) = some s.waterConsumptionCount) := by
  refine ⟨?_, fun h => ?_, mqttCallback_total toInt online payload s hp, fun h => ?_,
    fun h => ?_⟩
  · rw [incrementTicks_count, wrap32_of_range _ (by omega) (by omega)]; omega
  · rcases waterSample_tally fp a online s with ⟨_, k, _⟩ | ⟨_, _, _, k, _⟩ | ⟨_, _, k, _⟩
    · rw [k]
    · rw [k]
    · rw [k, wrap32_of_range _ (by omega) (by omega)]; omega
  · have := (mqttCallback_recovery toInt online payload s).1 h
    cases hm : mqttCallback toInt online "water/total" payload s with
    | none => rw [hm] at this; simp at this
    | some t =>
      rw [hm] at this
      simp only [Option.map_some', Option.some.injEq, Prod.mk.injEq] at this
      simp only [Option.map_some', this.1]
  · rw [(mqttCallback_recovery toInt online payload s).2 h]
    rfl

set_option maxRecDepth 100000 in
/-- C15 amended, at an input: with a total of 100 in phase 3, a tick and a completed pulse
give 101, the payload `"250"` on `water/cmd/total` and on `water/total` gives 250. -/
theorem consumption_total_writers_witness :
    (100 : Int) ≤ (incrementTicks true 1
        { Gateway.boot with waterConsumptionCount := 100, waterState := 3,
                            waterLastLevel := 300 }).waterConsumptionCount ∧
    (mqttCallback decimalValue true "water/cmd/total" [50, 53, 48]
        { Gateway.boot with waterConsumptionCount := 100, waterState := 3,
                            waterLastLevel := 300 }).map
      (fun t => t.waterConsumptionCount) = some (wrap32 (decimalValue [50, 53, 48])) :=
  have h := consumption_total_writers Drift.exact 600 1 true decimalValue [50, 53, 48]
    { Gateway.boot with waterConsumptionCount := 100, waterState := 3, waterLastLevel := 300 }
    (by decide) (by decide) (by decide) (by decide)
  ⟨h.1, h.2.2.1⟩

/-! ## Polling loop: the error flag -/

theorem flagValues_append (a b : List Event) :
    flagValues (a ++ b) = flagValues a ++ flagValues b := by
  induction a with
  | nil => rfl
  | cons e rest ih =>
    cases e with
    | publish topic payload retained =>
      by_cases ht : topic = "ventilation/error/modbus"
      · simp [flagValues, ht, ih]
      · simp [flagValues, ht, ih]
    | _ => exact ih

theorem coolWait_frame : ∀ (n : Nat) (s t : Gateway), coolWait n s = some t →
    t = { s with millis := t.millis } := by
  intro n
  induction n with
  | zero => intro s t h; simp [coolWait] at h
  | succ k ih =>
    intro s t h
    rw [coolWait] at h
    split_ifs at h
    · exact ih (delay 20 s) t h
    · simp only [Option.some.injEq] at h
      rw [← h]

/-- Whenever the guard returns, it has left the error flag of the polling loop alone and
has either left the trace alone or published its own error and reset the device. -/
theorem modbusCool_frame (d : Int) (s t : Gateway) (h : modbusCool d s = some t) :
    t.modbusErrorActive = s.modbusErrorActive ∧
    ((t.rebooted = s.rebooted ∧ t.trace = s.trace) ∨
     (t.rebooted = true ∧ t.trace = s.trace ++
        [Event.publish "ventilation/error/modbusCooldown" "1" false, Event.reset])) := by
  unfold modbusCool at h
  split_ifs at h with h1 h2 h3
  · simp only [Option.some.injEq] at h
    rw [← h]
    exact ⟨rfl, Or.inr ⟨rfl, by simp [Gateway.emit]⟩⟩
  · dsimp only at h
    cases hc : coolWait coolFuel
        { s with modbusCooldownHit := wrap32 (s.modbusCooldownHit + 1) } with
    | none => rw [hc] at h; simp at h
    | some u =>
      rw [hc] at h
      simp only [Option.map_some', Option.some.injEq] at h
      have hu := coolWait_frame _ _ _ hc
      rw [← h, hu]
      exact ⟨rfl, Or.inl ⟨rfl, rfl⟩⟩
  · simp only [Option.some.injEq] at h
    rw [← h]
    exact ⟨rfl, Or.inl ⟨rfl, rfl⟩⟩
  · simp only [Option.some.injEq] at h
    rw [← h]
    exact ⟨rfl, Or.inl ⟨rfl, rfl⟩⟩

theorem ReadModbus_frame (addr : Int) (sizer : Nat) (type : Int) (s t : Gateway)
    (h : ReadModbus addr sizer type s = some t) :
    t.modbusErrorActive = s.modbusErrorActive ∧ flagValues t.trace = flagValues s.trace := by
  unfold ReadModbus at h
  cases hc : modbusCool 200 s with
  | none => rw [hc] at h; simp at h
  | some u =>
    rw [hc] at h
    simp only [Option.map_some', Option.some.injEq] at h
    obtain ⟨f1, f2⟩ := modbusCool_frame 200 s u hc
    have hu : flagValues u.trace = flagValues s.trace := by
      rcases f2 with ⟨_, e⟩ | ⟨_, e⟩
      · rw [e]
      · rw [e, flagValues_append]
        have : flagValues [Event.publish "ventilation/error/modbusCooldown" "1" false,
            Event.reset] = [] := by decide
        rw [this, List.append_nil]
    split_ifs at h
    · rw [← h]; exact ⟨f1, hu⟩
    · rw [← h]
      refine ⟨f1, ?_⟩
      show flagValues (u.trace ++ _) = _
      rw [flagValues_append, hu]
      simp [flagValues]

theorem pollTopic_mem (r : Nat) (name : String) (L : List String)
    (h1 : "ventilation/control/" ∈ L) (h2 : "ventilation/time/" ∈ L)
    (h3 : "ventilation/output/" ∈ L) (h4 : "ventilation/display/" ∈ L)
    (h5 : "ventilation/speed/" ∈ L) (h6 : "ventilation/alarm/" ∈ L)
    (h7 : "ventilation/inputairtemp/" ∈ L) (h8 : "ventilation/weekprogram/" ∈ L)
    (h9 : "ventilation/user/" ∈ L) (h10 : "ventilation/info/" ∈ L)
    (h11 : "ventilation/moist/" ∈ L) (h12 : "ventilation/temp/" ∈ L)
    (h13 : "ventilation/unmapped/" ∈ L) : pollTopic r name ∈ L := by
  unfold pollTopic
  by_cases c0 : r = 5
  · rw [if_pos c0]; exact h1
  rw [if_neg c0]
  by_cases c1 : r = 4
  · rw [if_pos c1]; exact h2
  rw [if_neg c1]
  by_cases c2 : r = 16
  · rw [if_pos c2]; exact h3
  rw [if_neg c2]
  by_cases c3 : r = 19
  · rw [if_pos c3]; exact h4
  rw [if_neg c3]
  by_cases c4 : r = 6
  · rw [if_pos c4]; exact h5
  rw [if_neg c4]
  by_cases c5 : r = 3
  · rw [if_pos c5]; exact h6
  rw [if_neg c5]
  by_cases c6 : r = 14
  · rw [if_pos c6]; exact h7
  rw [if_neg c6]
  by_cases c7 : r = 10
  · rw [if_pos c7]; exact h8
  rw [if_neg c7]
  by_cases c8 : r = 11
  · rw [if_pos c8]; exact h9
  rw [if_neg c8]
  by_cases c9 : r = 12
  · rw [if_pos c9]; exact h9
  rw [if_neg c9]
  by_cases c10 : r = 13
  · rw [if_pos c10]; exact h10
  rw [if_neg c10]
  by_cases ct : r = 0 ∨ r = 1 ∨ r = 2
  · rw [if_pos ct]
    by_cases cn : name.data.take 2 = ['R', 'H']
    · rw [if_pos cn]; exact h11
    · rw [if_neg cn]; exact h12
  · rw [if_neg ct]; exact h13

theorem pollTopic_not_error (r : Nat) (name : String) :
    pollTopic r name ++ name ≠ "ventilation/error/modbus" := by
  have hm := pollTopic_mem r name ["ventilation/control/", "ventilation/time/",
      "ventilation/output/", "ventilation/display/", "ventilation/speed/",
      "ventilation/alarm/", "ventilation/inputairtemp/", "ventilation/weekprogram/",
      "ventilation/user/", "ventilation/info/", "ventilation/moist/", "ventilation/temp/",
      "ventilation/unmapped/"] (by decide) (by decide) (by decide) (by decide) (by decide)
      (by decide) (by decide) (by decide) (by decide) (by decide) (by decide) (by decide)
      (by decide)
  have hall : ∀ p ∈ ["ventilation/control/", "ventilation/time/",
      "ventilation/output/", "ventilation/display/", "ventilation/speed/",
      "ventilation/alarm/", "ventilation/inputairtemp/", "ventilation/weekprogram/",
      "ventilation/user/", "ventilation/info/", "ventilation/moist/", "ventilation/temp/",
      "ventilation/unmapped/"],
      13 ≤ p.data.length ∧ p.data.take 13 ≠ "ventilation/e".data := by decide
  have h := hall _ hm
  intro he
  have hd := congrArg (fun x => x.data.take 13) he
  simp only [String.data_append] at hd
  rw [List.take_append_of_le_length h.1] at hd
  exact h.2 (by rw [hd]; decide)

/-- The publications of the values of a group leave the error flag, the values published
for it, the clock, the deadline of the guard and the reboot mark alone. -/
theorem pollPublish_frame (render : Nat → Nat → String → Int → String) (r : Nat)
    (rsBuffer : List Int) (s : Gateway) :
    (pollPublish render r rsBuffer s).modbusErrorActive = s.modbusErrorActive ∧
    flagValues (pollPublish render r rsBuffer s).trace = flagValues s.trace ∧
    (pollPublish render r rsBuffer s).millis = s.millis ∧
    (pollPublish render r rsBuffer s).modbusCooldown = s.modbusCooldown ∧
    (pollPublish render r rsBuffer s).rebooted = s.rebooted := by
  unfold pollPublish
  generalize List.range (ventRegistrationSizes.getD r 0) = l
  induction l generalizing s with
  | nil => exact ⟨rfl, rfl, rfl, rfl, rfl⟩
  | cons i rest ih =>
    rw [List.foldl_cons]
    cases hn : getName r i with
    | none => exact ih s
    | some name =>
      dsimp only
      split_ifs
      · obtain ⟨a1, a2, a3, a4, a5⟩ := ih (s.emit (Event.publish (pollTopic r name ++ name)
          (render r i name (rsBuffer.getD i 0)) false))
        refine ⟨a1, ?_, a3, a4, a5⟩
        rw [a2]
        show flagValues (s.trace ++ _) = _
        rw [flagValues_append]
        simp [flagValues, pollTopic_not_error r name]
      · exact ih s

/-- The handling of one read result: `"1"` is published exactly by a failed read while the
flag is clear, `"0"` exactly by a successful read while the flag is set, and afterwards
the flag tells whether the read failed. -/
theorem pollResult_flag (render : Nat → Nat → String → Int → String) (r result : Nat)
    (rsBuffer : List Int) (s : Gateway) :
    flagValues (pollResult render r result rsBuffer s).trace
      = flagValues s.trace ++
        (if result ≠ 0 ∧ s.modbusErrorActive = false then ["1"]
         else if result = 0 ∧ s.modbusErrorActive = true then ["0"] else []) ∧
    (pollResult render r result rsBuffer s).modbusErrorActive = decide (result ≠ 0) ∧
    (pollResult render r result rsBuffer s).millis = s.millis ∧
    (pollResult render r result rsBuffer s).modbusCooldown = s.modbusCooldown ∧
    (pollResult render r result rsBuffer s).rebooted = s.rebooted := by
  unfold pollResult
  by_cases h0 : result = 0
  · rw [if_pos h0]
    dsimp only
    by_cases ha : s.modbusErrorActive = true
    · rw [if_pos ha]
      obtain ⟨a1, a2, a3, a4, a5⟩ := pollPublish_frame render r rsBuffer
        { s.emit (Event.publish "ventilation/error/modbus" "0" false) with
          modbusErrorActive := false }
      refine ⟨?_, ?_, a3, a4, a5⟩
      · rw [a2, if_neg (by simp [h0]), if_pos ⟨h0, ha⟩]
        show flagValues (s.trace ++ _) = _
        rw [flagValues_append]
        simp [flagValues]
      · rw [a1]; simp [h0]
    · rw [if_neg ha]
      obtain ⟨a1, a2, a3, a4, a5⟩ := pollPublish_frame render r rsBuffer s
      refine ⟨?_, ?_, a3, a4, a5⟩
      · rw [a2, if_neg (by simp [h0]), if_neg (by simp [ha]), List.append_nil]
      · rw [a1]; simpa [h0] using ha
  · rw [if_neg h0]
    by_cases ha : s.modbusErrorActive = false
    · rw [if_pos ha, if_pos ⟨h0, ha⟩]
      refine ⟨?_, by simp [h0], rfl, rfl, rfl⟩
      show flagValues (s.trace ++ _) = _
      rw [flagValues_append]
      simp [flagValues]
    · rw [if_neg ha, if_neg (by simp [ha]), if_neg (by simp [h0]), List.append_nil]
      refine ⟨rfl, ?_, rfl, rfl, rfl⟩
      simpa [h0] using ha

/-- One read of the polling loop, whenever it returns: the values published for the flag
grow by nothing or by one value, on an edge only. -/
theorem pollGroup_flag (render : Nat → Nat → String → Int → String) (r result : Nat)
    (rsBuffer : List Int) (s u : Gateway)
    (h : pollGroup render r result rsBuffer s = some u) :
    (∃ step, flagValues u.trace = flagValues s.trace ++ step ∧
      ((step = [] ∧ u.modbusErrorActive = s.modbusErrorActive) ∨
       (step = ["1"] ∧ s.modbusErrorActive = false ∧ u.modbusErrorActive = true) ∨
       (step = ["0"] ∧ s.modbusErrorActive = true ∧ u.modbusErrorActive = false))) ∧
    (u.rebooted = false → u.modbusErrorActive = decide (result ≠ 0)) := by
  unfold pollGroup at h
  cases hc : ReadModbus (ventRegistrationAddresses.getD r 0) (ventRegistrationSizes.getD r 0)
      (ventRegistrationTypes.getD r 0) s with
  | none => rw [hc] at h; simp at h
  | some t =>
    rw [hc] at h
    simp only [Option.map_some', Option.some.injEq] at h
    obtain ⟨f1, f2⟩ := ReadModbus_frame _ _ _ s t hc
    by_cases hr : t.rebooted = true
    · rw [if_pos hr] at h
      subst h
      exact ⟨⟨[], by rw [f2, List.append_nil], Or.inl ⟨rfl, f1⟩⟩,
        fun hf => absurd hr (by rw [hf]; decide)⟩
    · rw [if_neg hr] at h
      subst h
      obtain ⟨p1, p2, _⟩ := pollResult_flag render r result rsBuffer t
      refine ⟨⟨_, by rw [p1, f2], ?_⟩, fun _ => p2⟩
      rw [p2, f1]
      by_cases h0 : result = 0
      · cases ha : s.modbusErrorActive
        · exact Or.inl ⟨by simp [h0], by simp [h0]⟩
        · exact Or.inr (Or.inr ⟨by simp [h0], rfl, by simp [h0]⟩)
      · cases ha : s.modbusErrorActive
        · exact Or.inr (Or.inl ⟨by simp [h0], rfl, by simp [h0]⟩)
        · exact Or.inl ⟨by simp [h0], by simp [h0]⟩

/-- A run of reads, whenever it returns: the values published for the flag alternate,
start with the value opposite to the flag before the run and end with the value of the
flag after it. -/
theorem pollRun_flags (render : Nat → Nat → String → Int → String) :
    ∀ (reads : List PollRead) (s t : Gateway), pollRun render reads s = some t →
    ∃ new, flagValues t.trace = flagValues s.trace ++ new ∧
      List.Chain' (fun a b => a ≠ b) new ∧
      (∀ x, new.head? = some x → x = if s.modbusErrorActive = true then "0" else "1") ∧
      (∀ x, new.getLast? = some x → x = if t.modbusErrorActive = true then "1" else "0") ∧
      (new = [] → t.modbusErrorActive = s.modbusErrorActive) := by
  intro reads
  induction reads with
  | nil =>
    intro s t h
    simp only [pollRun, Option.some.injEq] at h
    subst h
    exact ⟨[], by simp, List.chain'_nil, by simp, by simp, fun _ => rfl⟩
  | cons c rest ih =>
    intro s t h
    rw [pollRun] at h
    cases hg : pollGroup render c.group c.result c.words (elapse c.wait s) with
    | none => rw [hg] at h; simp at h
    | some u =>
      rw [hg] at h
      dsimp only at h
      obtain ⟨⟨step, hs1, hs2⟩, _⟩ := pollGroup_flag render _ _ _ _ u hg
      have hs1 : flagValues u.trace = flagValues s.trace ++ step := hs1
      have hs2 : (step = [] ∧ u.modbusErrorActive = s.modbusErrorActive) ∨
          (step = ["1"] ∧ s.modbusErrorActive = false ∧ u.modbusErrorActive = true) ∨
          (step = ["0"] ∧ s.modbusErrorActive = true ∧ u.modbusErrorActive = false) := hs2
      have hrest : ∃ new, flagValues t.trace = flagValues u.trace ++ new ∧
          List.Chain' (fun a b => a ≠ b) new ∧
          (∀ x, new.head? = some x → x = if u.modbusErrorActive = true then "0" else "1") ∧
          (∀ x, new.getLast? = some x → x = if t.modbusErrorActive = true then "1" else "0") ∧
          (new = [] → t.modbusErrorActive = u.modbusErrorActive) := by
        by_cases hr : u.rebooted = true
        · rw [if_pos hr] at h
          simp only [Option.some.injEq] at h
          subst h
          exact ⟨[], by simp, List.chain'_nil, by simp, by simp, fun _ => rfl⟩
        · rw [if_neg hr] at h
          exact ih u t h
      obtain ⟨new, n1, n2, n3, n4, n5⟩ := hrest
      refine ⟨step ++ new, by rw [n1, hs1, List.append_assoc], ?_⟩
      rcases hs2 with ⟨e, a⟩ | ⟨e, a, b⟩ | ⟨e, a, b⟩
      · subst e
        rw [List.nil_append, ← a]
        exact ⟨n2, n3, n4, fun hn => n5 hn⟩
      · subst e
        rw [b] at n3 n5
        refine ⟨?_, ?_, ?_, ?_⟩
        · rw [List.singleton_append, List.chain'_cons']
          refine ⟨fun y hy => ?_, n2⟩
          rw [n3 y (by simpa using hy)]
          decide
        · intro x hx
          simp only [List.singleton_append, List.head?_cons, Option.some.injEq] at hx
          rw [← hx, a]
          rfl
        · intro x hx
          cases new with
          | nil =>
            simp only [List.append_nil, List.getLast?_singleton, Option.some.injEq] at hx
            rw [← hx, n5 rfl]
            rfl
          | cons y ys =>
            exact n4 x (by simpa using hx)
        · intro hn
          simp at hn
      · subst e
        rw [b] at n3 n5
        refine ⟨?_, ?_, ?_, ?_⟩
        · rw [List.singleton_append, List.chain'_cons']
          refine ⟨fun y hy => ?_, n2⟩
          rw [n3 y (by simpa using hy)]
          decide
        · intro x hx
          simp only [List.singleton_append, List.head?_cons, Option.some.injEq] at hx
          rw [← hx, a]
          rfl
        · intro x hx
          cases new with
          | nil =>
            simp only [List.append_nil, List.getLast?_singleton, Option.some.injEq] at hx
            rw [← hx, n5 rfl]
            rfl
          | cons y ys =>
            exact n4 x (by simpa using hx)
        · intro hn
          simp at hn

/-- After a run of reads that did not reboot, the flag tells whether the last read
failed. -/
theorem pollRun_last (render : Nat → Nat → String → Int → String) :
    ∀ (reads : List PollRead) (s t : Gateway), pollRun render reads s = some t →
    t.rebooted = false → ∀ c, reads.getLast? = some c →
    t.modbusErrorActive = decide (c.result ≠ 0) := by
  intro reads
  induction reads with
  | nil => intro s t _ _ c hc; simp at hc
  | cons c rest ih =>
    intro s t h hrb d hd
    rw [pollRun] at h
    cases hg : pollGroup render c.group c.result c.words (elapse c.wait s) with
    | none => rw [hg] at h; simp at h
    | some u =>
      rw [hg] at h
      dsimp only at h
      obtain ⟨_, hu⟩ := pollGroup_flag render _ _ _ _ u hg
      by_cases hr : u.rebooted = true
      · rw [if_pos hr] at h
        simp only [Option.some.injEq] at h
        subst h
        rw [hrb] at hr
        exact absurd hr (by decide)
      · rw [if_neg hr] at h
        cases rest with
        | nil =>
          simp only [pollRun, Option.some.injEq] at h
          subst h
          simp only [List.getLast?_singleton, Option.some.injEq] at hd
          subst hd
          exact hu hrb
        | cons e es =>
          exact ih u t h hrb d (by simpa using hd)

/-! ## Polling loop: the reads return before the signed wrap of the clock -/

theorem toLong_elapse (m w : Nat) (h : toLong m + w < 2147483648) :
    toLong ((m + w) % 4294967296) = toLong m + w := by
  unfold toLong wrap32 at *
  push_cast
  omega

theorem coolWait_ends_by (n : Nat) : ∀ s : Gateway, s.modbusCooldown ≤ 2147483627 →
    s.modbusCooldown - toLong s.millis ≤ 20 * (n : Int) →
    ∃ m, coolWait (n + 1) s = some { s with millis := m } ∧
      (toLong m ≤ toLong s.millis ∨ toLong m ≤ s.modbusCooldown + 19) := by
  induction n with
  | zero =>
    intro s _ hgap
    refine ⟨s.millis, ?_, Or.inl (le_refl _)⟩
    unfold coolWait
    rw [if_neg (by omega)]
  | succ k ih =>
    intro s hcd hgap
    by_cases hw : toLong s.millis < s.modbusCooldown
    · have hstep : toLong (delay 20 s).millis = toLong s.millis + 20 :=
        toLong_delay s.millis (by omega)
      have hcd2 : (delay 20 s).modbusCooldown = s.modbusCooldown := rfl
      obtain ⟨m, e, hm⟩ := ih (delay 20 s) hcd (by
        rw [hstep, hcd2]; push_cast at hgap; omega)
      refine ⟨m, ?_, Or.inr ?_⟩
      · rw [coolWait, if_pos hw, e]
        rfl
      · rw [hstep, hcd2] at hm
        omega
    · refine ⟨s.millis, ?_, Or.inl (le_refl _)⟩
      rw [coolWait, if_neg hw]

/-- With the clock and the deadline at most `B`, far enough below the largest `long`, the
guard returns at a clock of at most `B + 19` and leaves a deadline of at most
`B + 19 + coolDownTimeMS`. -/
theorem modbusCool_by (d : Int) (s : Gateway) (B : Int) (hd : 0 ≤ d)
    (h1 : toLong s.millis ≤ B) (h2 : s.modbusCooldown ≤ B) (h3 : B + 19 + d ≤ 2147483627) :
    ∃ t, modbusCool d s = some t ∧ toLong t.millis ≤ B + 19 ∧
      t.modbusCooldown ≤ B + 19 + d := by
  have hb := toLong_bounds s.millis
  by_cases hw : toLong s.millis < s.modbusCooldown
  · by_cases h50 : s.modbusCooldownHit > 50
    · refine ⟨_, by unfold modbusCool; rw [if_pos hw, if_pos h50], ?_, ?_⟩
      · show toLong s.millis ≤ _
        omega
      · show s.modbusCooldown ≤ _
        omega
    · obtain ⟨m, e, hm⟩ := coolWait_ends_by 1073741824
        { s with modbusCooldownHit := wrap32 (s.modbusCooldownHit + 1) } (by
          show s.modbusCooldown ≤ _
          omega) (by
          show s.modbusCooldown - toLong s.millis ≤ _
          push_cast; omega)
      have hm2 : toLong m ≤ B + 19 := by
        rcases hm with hm | hm
        · have : toLong m ≤ toLong s.millis := hm
          omega
        · have : toLong m ≤ s.modbusCooldown + 19 := hm
          omega
      refine ⟨{ s with modbusCooldownHit := wrap32 (s.modbusCooldownHit + 1), millis := m,
                       modbusCooldown := wrap32 (m + d) }, ?_, hm2, ?_⟩
      · unfold modbusCool
        rw [if_pos hw, if_neg h50]
        show (coolWait (1073741824 + 1) _).map _ = _
        rw [e]
        rfl
      · show wrap32 ((m : Int) + d) ≤ _
        rw [wrap32_clock_add m d hd (by omega)]
        omega
  · have hc : wrap32 ((s.millis : Int) + d) ≤ B + 19 + d := by
      rw [wrap32_clock_add s.millis d hd (by omega)]
      omega
    unfold modbusCool
    rw [if_neg hw]
    dsimp only
    split_ifs
    · exact ⟨_, rfl, by show toLong s.millis ≤ _; omega, hc⟩
    · exact ⟨_, rfl, by show toLong s.millis ≤ _; omega, hc⟩

theorem ReadModbus_by (addr : Int) (sizer : Nat) (type : Int) (s : Gateway) (B : Int)
    (h1 : toLong s.millis ≤ B) (h2 : s.modbusCooldown ≤ B) (h3 : B + 219 ≤ 2147483627) :
    ∃ t, ReadModbus addr sizer type s = some t ∧ toLong t.millis ≤ B + 219 ∧
      t.modbusCooldown ≤ B + 219 := by
  obtain ⟨u, e, u1, u2⟩ := modbusCool_by 200 s B (by decide) h1 h2 (by omega)
  unfold ReadModbus
  rw [e, Option.map_some']
  by_cases hr : u.rebooted = true
  · rw [if_pos hr]
    exact ⟨u, rfl, by omega, by omega⟩
  · rw [if_neg hr]
    refine ⟨_, rfl, ?_, ?_⟩
    · show toLong u.millis ≤ _
      omega
    · show u.modbusCooldown ≤ _
      omega

theorem pollGroup_by (render : Nat → Nat → String → Int → String) (r result : Nat)
    (rsBuffer : List Int) (s : Gateway) (B : Int)
    (h1 : toLong s.millis ≤ B) (h2 : s.modbusCooldown ≤ B) (h3 : B + 219 ≤ 2147483627) :
    ∃ t, pollGroup render r result rsBuffer s = some t ∧ toLong t.millis ≤ B + 219 ∧
      t.modbusCooldown ≤ B + 219 := by
  obtain ⟨u, e, u1, u2⟩ := ReadModbus_by (ventRegistrationAddresses.getD r 0)
    (ventRegistrationSizes.getD r 0) (ventRegistrationTypes.getD r 0) s B h1 h2 h3
  unfold pollGroup
  rw [e, Option.map_some']
  by_cases hr : u.rebooted = true
  · rw [if_pos hr]
    exact ⟨u, rfl, u1, u2⟩
  · rw [if_neg hr]
    obtain ⟨_, _, p3, p4, _⟩ := pollResult_flag render r result rsBuffer u
    exact ⟨_, rfl, by rw [p3]; exact u1, by rw [p4]; exact u2⟩

/-- A run of reads returns when the clock stays below the largest `long`: with the clock
and the deadline at most `B` at the start, 219 ms are allowed for each read on top of the
time that passes before it. -/
theorem pollRun_returns (render : Nat → Nat → String → Int → String) :
    ∀ (reads : List PollRead) (s : Gateway) (B : Int), toLong s.millis ≤ B →
    s.modbusCooldown ≤ B →
    B + (reads.map (fun c => (c.wait : Int) + 219)).sum ≤ 2147483627 →
    ∃ t, pollRun render reads s = some t := by
  intro reads
  induction reads with
  | nil => intro s B _ _ _; exact ⟨s, rfl⟩
  | cons c rest ih =>
    intro s B h1 h2 h3
    have hpos : 0 ≤ (rest.map (fun c => (c.wait : Int) + 219)).sum :=
      List.sum_nonneg (by
        intro x hx
        obtain ⟨y, _, rfl⟩ := List.mem_map.mp hx
        omega)
    simp only [List.map_cons, List.sum_cons] at h3
    have hb := toLong_bounds s.millis
    have he : toLong (elapse c.wait s).millis = toLong s.millis + c.wait :=
      toLong_elapse s.millis c.wait (by omega)
    obtain ⟨u, e, u1, u2⟩ := pollGroup_by render c.group c.result c.words (elapse c.wait s)
      (B + c.wait) (by rw [he]; omega) (by show s.modbusCooldown ≤ _; omega) (by omega)
    rw [pollRun, e]
    dsimp only
    by_cases hr : u.rebooted = true
    · rw [if_pos hr]
      exact ⟨u, rfl⟩
    · rw [if_neg hr]
      exact ih u (B + c.wait + 219) u1 u2 (by omega)

/-! ## C17 -/

/-- C17: in the handling of a read result `error/modbus` `"1"` is published exactly by a
failed read while `modbusErrorActive` is false and `"0"` exactly by a successful read
while it is true, and afterwards `modbusErrorActive` tells whether the read failed.  Over
every run of reads of the polling loop, with any result codes, the values published on
`error/modbus` therefore alternate strictly, the first being the opposite of the flag
before the run and the last the flag after it, and unless the bus guard reset the device
`modbusErrorActive` tells whether the last read failed.  Such a run returns whenever the
clock stays below the largest `long`: clock and guard deadline at most `B` at the start,
and 219 ms for each read on top of the time that passes before it. -/
theorem error_flag_edges (render : Nat → Nat → String → Int → String)
    (reads : List PollRead) (s : Gateway) :
    (∀ (r result : Nat) (words : List Int) (u : Gateway),
      flagValues (pollResult render r result words u).trace
        = flagValues u.trace ++
          (if result ≠ 0 ∧ u.modbusErrorActive = false then ["1"]
           else if result = 0 ∧ u.modbusErrorActive = true then ["0"] else []) ∧
      (pollResult render r result words u).modbusErrorActive = decide (result ≠ 0)) ∧
    (∀ t, pollRun render reads s = some t →
      (∃ new, flagValues t.trace = flagValues s.trace ++ new ∧
        List.Chain' (fun a b => a ≠ b) new ∧
        (∀ x, new.head? = some x → x = if s.modbusErrorActive = true then "0" else "1") ∧
        (∀ x, new.getLast? = some x → x = if t.modbusErrorActive = true then "1" else "0")) ∧
      (t.rebooted = false → ∀ c, reads.getLast? = some c →
        t.modbusErrorActive = decide (c.result ≠ 0))) ∧
    (∀ B : Int, toLong s.millis ≤ B → s.modbusCooldown ≤ B →
      B + (reads.map (fun c => (c.wait : Int) + 219)).sum ≤ 2147483627 →
      ∃ t, pollRun render reads s = some t) := by
  refine ⟨fun r result words u => ?_, fun t ht => ⟨?_, pollRun_last render reads s t ht⟩,
    fun B h1 h2 h3 => pollRun_returns render reads s B h1 h2 h3⟩
  · obtain ⟨p1, p2, _⟩ := pollResult_flag render r result words u
    exact ⟨p1, p2⟩
  · obtain ⟨new, n1, n2, n3, n4, _⟩ := pollRun_flags render reads s t ht
    exact ⟨new, n1, n2, n3, n4⟩

set_option maxRecDepth 1000000 in
/-- C17 at an input: from the state after boot the reads fail, fail, succeed, succeed and
fail, 300 ms apart; the run returns, the values published on `error/modbus` are `"1"`,
`"0"`, `"1"`, and the flag is set at the end. -/
theorem error_flag_edges_witness :
    (pollRun (fun _ _ _ _ => "") [⟨0, 0, 226, []⟩, ⟨300, 1, 226, []⟩, ⟨300, 2, 0, [2150]⟩,
        ⟨300, 5, 0, [1, 2, 3, 4, 2300, 6, 7, 8]⟩, ⟨300, 3, 226, []⟩] Gateway.boot).map
      (fun t => (flagValues t.trace, t.modbusErrorActive, t.rebooted))
      = some (["1", "0", "1"], true, false) ∧
    ∃ t, pollRun (fun _ _ _ _ => "") [⟨0, 0, 226, []⟩, ⟨300, 1, 226, []⟩, ⟨300, 2, 0, [2150]⟩,
        ⟨300, 5, 0, [1, 2, 3, 4, 2300, 6, 7, 8]⟩, ⟨300, 3, 226, []⟩] Gateway.boot = some t ∧
      (∃ new, flagValues t.trace = flagValues Gateway.boot.trace ++ new ∧
        List.Chain' (fun a b => a ≠ b) new ∧
        (∀ x, new.head? = some x →
          x = if Gateway.boot.modbusErrorActive = true then "0" else "1") ∧
        (∀ x, new.getLast? = some x →
          x = if t.modbusErrorActive = true then "1" else "0")) := by
  have h := error_flag_edges (fun _ _ _ _ => "") [⟨0, 0, 226, []⟩, ⟨300, 1, 226, []⟩,
    ⟨300, 2, 0, [2150]⟩, ⟨300, 5, 0, [1, 2, 3, 4, 2300, 6, 7, 8]⟩, ⟨300, 3, 226, []⟩]
    Gateway.boot
  obtain ⟨t, ht⟩ := h.2.2 0 (by decide) (by decide) (by decide)
  exact ⟨by decide, t, ht, (h.2.1 t ht).1⟩

/-! ## Length of the rendered text -/

theorem toString_int16_length (w : Int) (h1 : -32768 ≤ w) (h2 : w ≤ 32767) :
    (toString w).length ≤ 6 := by
  cases w with
  | ofNat n =>
    have hn : n < 10 ^ 5 := by
      have : (n : Int) ≤ 32767 := h2
      omega
    have := Nat.repr_length n 5 (by decide) hn
    show (Nat.repr n).length ≤ 6
    omega
  | negSucc n =>
    have hn : n + 1 < 10 ^ 5 := by
      have : -32768 ≤ Int.negSucc n := h1
      rw [Int.negSucc_eq] at this
      omega
    have := Nat.repr_length (n + 1) 5 (by decide) hn
    show ("-" ++ Nat.repr (n + 1)).length ≤ 6
    rw [String.length_append]
    have : "-".length = 1 := rfl
    omega

theorem fmt02d_length (k : Nat) (h : k < 1000) : (fmt02d (k : Int)).length ≤ 3 := by
  unfold fmt02d
  have e : toString (k : Int) = Nat.repr k := rfl
  rw [e]
  split_ifs with hk
  · have := Nat.repr_length k 1 (by decide) (by omega)
    rw [String.length_append]
    have : "0".length = 1 := rfl
    omega
  · exact Nat.repr_length k 3 (by decide) (by omega)

/-- A positive word at an alarm date position is rendered as ten characters. -/
theorem alarmDateString_length (n : Nat) (h0 : 0 < n) (h1 : n < 32768) :
    (alarmDateString (n : Int)).length = 10 := by
  rw [alarmDateString_pos n h0, yearString (n / 512) (by omega),
    fmt02d_two (n / 32 % 16) (by omega), fmt02d_two (n % 32) (by omega)]
  rfl

/-- A word at an alarm time position is rendered as at most nine characters. -/
theorem alarmTimeString_length (w : Int) (h2 : w ≤ 32767) :
    (alarmTimeString w).length ≤ 9 := by
  by_cases hw : w > 0
  · obtain ⟨n, rfl⟩ : ∃ n : Nat, w = (n : Int) := ⟨w.toNat, by omega⟩
    have hn : n < 32768 := by omega
    have hs : (n &&& 0x11F) * 2 < 1000 := by
      have : n &&& 0x11F ≤ 0x11F := Nat.and_le_right
      omega
    have h3 := fmt02d_length ((n &&& 0x11F) * 2) hs
    rw [alarmTimeString_pos n (by omega), fmt02d_two (n / 2048) (by omega),
      fmt02d_two (n / 32 % 64) (by omega)]
    simp only [String.length_append]
    have e1 : (String.mk [digitChar (n / 2048 / 10), digitChar (n / 2048)]).length = 2 := rfl
    have e2 : (String.mk [digitChar (n / 32 % 64 / 10), digitChar (n / 32 % 64)]).length = 2 :=
      rfl
    have e3 : ":".length = 1 := rfl
    omega
  · unfold alarmTimeString
    rw [if_neg hw]
    decide

theorem alarmScan_text (w : Int) : ∀ (n p : Nat) (s : String), alarmScan w n p = some s →
    s = "UNKNOWN" ∨ s ∈ ventAlarmListText := by
  intro n
  induction n with
  | zero =>
    intro p s h
    simp only [alarmScan, Option.some.injEq] at h
    exact Or.inl h.symm
  | succ k ih =>
    intro p s h
    rw [alarmScan] at h
    cases hv : ventAlarmListNumber[p]? with
    | none => rw [hv] at h; simp at h
    | some v =>
      rw [hv] at h
      dsimp only at h
      split_ifs at h
      · exact Or.inr (List.getElem?_mem h)
      · exact ih (p + 1) s h

/-- Every text that the alarm id lookup leaves has at most nine characters. -/
theorem alarmIdString_length (w : Int) (s : String) (h : alarmIdString w = some s) :
    s.length ≤ 9 := by
  have hall : ∀ t ∈ ventAlarmListText, t.length ≤ 9 := by decide
  unfold alarmIdString at h
  split_ifs at h
  · rcases alarmScan_text w _ _ s h with e | e
    · rw [e]; decide
    · exact hall s e
  · simp only [Option.some.injEq] at h
    rw [← h]; decide

/-- In the alarm group every text except the date of a positive word has at most nine
characters. -/
theorem alarmString_fits_except_date (i : Nat) (w : Int) (h1 : -32768 ≤ w) (h2 : w ≤ 32767)
    (hnd : ¬ ((i = 2 ∨ i = 5 ∨ i = 8) ∧ 0 < w)) (s : String)
    (h : alarmString i w = some s) : s.length ≤ 9 := by
  unfold alarmString at h
  split_ifs at h with c1 c2 c3
  · exact alarmIdString_length w s h
  · simp only [Option.some.injEq] at h
    have hw : ¬ w > 0 := fun hw => hnd ⟨c2, hw⟩
    rw [← h]
    unfold alarmDateString
    rw [if_neg hw]
    decide
  · simp only [Option.some.injEq] at h
    rw [← h]
    exact le_trans (alarmTimeString_length w h2) (le_refl _)
  · simp only [Option.some.injEq] at h
    rw [← h]
    exact le_trans (toString_int16_length w h1 h2) (by decide)

/-- Apart from the date of a positive alarm word, every text that the polling loop renders
for a signed 16-bit word has at most nine characters, provided the two conversions of
`dtostrf` that the loop uses do. -/
theorem numberString_fits_except_date (dtostrf : ℚ → Int → Nat → String) (r i : Nat)
    (name : String) (w : Int) (h1 : -32768 ≤ w) (h2 : w ≤ 32767)
    (hd1 : (dtostrf ((Int.tdiv w 100 : Int) : ℚ) 1 0).length ≤ 9)
    (hd2 : (dtostrf ((w : ℚ) / 100) 5 2).length ≤ 9)
    (hnd : ¬ (r = 3 ∧ (i = 2 ∨ i = 5 ∨ i = 8) ∧ 0 < w)) (s : String)
    (h : numberString dtostrf r i name w = some s) : s.length ≤ 9 := by
  have hi := le_trans (toString_int16_length w h1 h2) (show 6 ≤ 9 by decide)
  unfold numberString at h
  split_ifs at h with c1 c2 c3 c4 c5 c6
  · simp only [Option.some.injEq] at h; rw [← h]; exact hd1
  · simp only [Option.some.injEq] at h; rw [← h]; exact hi
  · simp only [Option.some.injEq] at h; rw [← h]; exact hi
  · exact alarmString_fits_except_date i w h1 h2 (fun hh => hnd ⟨c4, hh⟩) s h
  · simp only [Option.some.injEq] at h; rw [← h]; exact hi
  · simp only [Option.some.injEq] at h; rw [← h]; exact hd2

/-- Every positive signed 16-bit word at a date position of the alarm group is rendered
as ten characters, whatever the conversion `dtostrf` is. -/
theorem numberString_date_length (dtostrf : ℚ → Int → Nat → String) (i : Nat)
    (name : String) (n : Nat) (hi : i = 2 ∨ i = 5 ∨ i = 8) (h0 : 0 < n) (h1 : n < 32768) :
    (numberString dtostrf 3 i name (n : Int)).map String.length = some 10 := by
  have e : numberString dtostrf 3 i name (n : Int) = alarmString i (n : Int) := by
    unfold numberString
    rw [if_neg (by decide), if_neg (by decide), if_pos rfl]
  rw [e, alarmString_date i hi, Option.map_some', alarmDateString_length n h0 h1]

/-! ## C21 -/

set_option maxRecDepth 100000 in
/-- C21 at the failing input: in the alarm group, which the polling loop reads, the word
22639 at index 2 (`List_1_Date`) is rendered as `2024-03-15`, whatever the conversion
`dtostrf` is; these ten characters and the terminating zero byte are eleven bytes, one
more than `numberString` has. -/
theorem numberString_date_overflows (dtostrf : ℚ → Int → Nat → String) :
    3 ∈ polledGroups ∧ getName 3 2 = some "List_1_Date" ∧
    numberString dtostrf 3 2 "List_1_Date" 22639 = some "2024-03-15" ∧
    (numberString dtostrf 3 2 "List_1_Date" 22639).map String.length = some 10 ∧
    ¬ (10 ≤ 9) ∧ numberStringSize < 10 + 1 := by
  refine ⟨by decide, by decide, ?_, ?_, by decide, by decide⟩
  · unfold numberString
    rw [if_neg (by decide), if_neg (by decide), if_pos rfl]
    decide
  · exact numberString_date_length dtostrf 2 "List_1_Date" 22639 (Or.inl rfl) (by decide)
      (by decide)

/-! ## Group lookup of `HandleRequest`: the index it leaves -/

set_option maxRecDepth 100000 in
/-- Every entry of `ventGroups` is looked up as its own index, which is below `reqmax`. -/
theorem requestGroup_known : ∀ i : Fin 20, requestGroup (ventGroups.getD i.val "") = i.val := by
  decide

/-- Every group string that is not an entry of `ventGroups` leaves the index at
`reqmax`. -/
theorem requestGroup_unknown (group : String) (h : group ∉ ventGroups) :
    requestGroup group = reqmax := by
  have key : ∀ (l : List Nat) (r : Nat), (∀ i ∈ l, i < 20) →
      l.foldl (fun r i => if ventGroups.getD i "" = group then i else r) r = r := by
    intro l
    induction l with
    | nil => intro r _; rfl
    | cons i rest ih =>
      intro r hl
      have hi : i < ventGroups.length := hl i (List.mem_cons_self _ _)
      have hne : ¬ ventGroups.getD i "" = group := by
        intro he
        apply h
        rw [← he, List.getD_eq_getElem _ _ hi]
        exact List.getElem_mem hi
      rw [List.foldl_cons, if_neg hne]
      exact ih r (fun j hj => hl j (List.mem_cons_of_mem _ hj))
  unfold requestGroup
  split_ifs
  · exact key _ _ (fun i hi => by
      have := List.mem_range.mp hi
      exact this)
  · rfl

/-! ## C22 -/

set_option maxRecDepth 100000 in
/-- C22 at the failing input: for the empty group string and for the unknown group `foo`
the lookup of `HandleRequest` leaves `r` at `reqmax` = 20; the request `read` then reads
all three catalog arrays at index 20, and every other request, `help` with the empty
group included, reads `ventRegistrationTypes[20]`.  The arrays have 20 entries, so index
20 is outside each of them. -/
theorem HandleRequest_reads_catalog_at_reqmax :
    requestGroup "" = 20 ∧ requestGroup "foo" = 20 ∧
    catalogReads "read" "foo" = [("ventRegistrationTypes", 20),
      ("ventRegistrationAddresses", 20), ("ventRegistrationSizes", 20)] ∧
    catalogReads "help" "" = [("ventRegistrationTypes", 20)] ∧
    ¬ (20 < reqmax) ∧
    ventRegistrationTypes.length = 20 ∧ ventRegistrationAddresses.length = 20 ∧
    ventRegistrationSizes.length = 20 ∧
    ventRegistrationTypes[20]? = none ∧ ventRegistrationAddresses[20]? = none ∧
    ventRegistrationSizes[20]? = none := by
  decide

/-! ## Set-point commands: what the register write does -/

end Nilan
